import Mathlib

/-!
MMCv3/SDv1/SDv2 (SPI mode) control module for Petit FatFs: `mmcbbp.c`.

A shallow embedding of `petitfatfs/mmcbbp.c` and a verification of its block-device
contract.

The model:

* The SPI link is full duplex: every byte exchange clocks one byte out of the card.
  The card is the stream `miso : Nat → Nat`; `miso k` is what the card drives during the
  `k`-th byte exchange since the start of the run, and `clk` counts the exchanges done.
  The driver is deterministic, so every card (also one reacting to what it is sent)
  shows up as one such stream.
* `log` is the bus activity in chronological order: `Ev.tx d` for a
  `spi_write_blocking` of `d` (the byte clocked in is dropped), `Ev.rx r` for a
  `spi_read_blocking` (filler `0xFF` out, `r` in), `Ev.cs b` for `gpio_put` on the
  chip-select pin.
* `BYTE` is `Nat` below `2^8`, `UINT` and `DWORD` are `Nat` below `2^32`; every place
  where the C code can wrap carries its `%` explicitly.
* Pin set-up, the LED, the baud rate and `DLY_US` have no data flow into the driver
  variables and are left out.
-/

namespace Mmcbbp

/-! ## Data model -/

/-- One observable action on the SPI link. -/
inductive Ev where
  | tx (d : Nat)
  | rx (r : Nat)
  | cs (high : Bool)
  deriving DecidableEq, Repr

/-- Modelled from the spec: `diskio.h` is not among the sources; the spec names the two
results of a read or write call `Ok` and `Error`, which are the enumerators `RES_OK` and
`RES_ERROR` used by `mmcbbp.c`. -/
inductive DRESULT where
  | RES_OK
  | RES_ERROR
  deriving DecidableEq, Repr

/-- Modelled from the spec: `diskio.h` is not among the sources; `STA_NOINIT` is the
non-zero status `disk_initialize` returns for "not initialized" (`0` is "Ready"). -/
def STA_NOINIT : Nat := 0x01

/-- The two `static` variables of the module together with the SPI link. -/
structure St where
  /-- The `static BYTE CardType`. -/
  CardType : Nat
  /-- The `static UINT wc` of `disk_writep`. -/
  wc : Nat
  /-- The byte the card drives during each exchange. -/
  miso : Nat → Nat
  /-- The number of byte exchanges done so far. -/
  clk : Nat
  /-- The bus activity so far, oldest first. -/
  log : List Ev

def CMD0 : Nat := 0x40 + 0
def CMD1 : Nat := 0x40 + 1
def ACMD41 : Nat := 0xC0 + 41
def CMD8 : Nat := 0x40 + 8
def CMD16 : Nat := 0x40 + 16
def CMD17 : Nat := 0x40 + 17
def CMD24 : Nat := 0x40 + 24
def CMD55 : Nat := 0x40 + 55
def CMD58 : Nat := 0x40 + 58

def CT_MMC : Nat := 0x01
def CT_SD1 : Nat := 0x02
def CT_SD2 : Nat := 0x04
def CT_BLOCK : Nat := 0x08

/-- Truncation to a 32-bit unsigned value (`UINT`, `DWORD`). -/
@[irreducible] def u32 (n : Nat) : Nat := n % 2 ^ 32

/-- The value of `--n` for a 32-bit unsigned `n`. -/
def dec32 (n : Nat) : Nat := u32 (n + (2 ^ 32 - 1))

/-- The value of `a - b` for 32-bit unsigned `a`, `b`. -/
def sub32 (a b : Nat) : Nat := u32 (a + 2 ^ 32 - b)

/-! ## Transport primitives -/

/-- `spi_write_blocking(SD_SPI_INST, &d, 1)`: one exchange, the byte clocked in is dropped. -/
def spi_write_blocking (d : Nat) (s : St) : St :=
  { s with clk := s.clk + 1, log := s.log ++ [Ev.tx d] }

/-- `spi_read_blocking(SD_SPI_INST, 0xFF, &r, 1)`: one exchange, returns the byte clocked in. -/
def spi_read_blocking (s : St) : Nat × St :=
  let r := s.miso s.clk % 256
  (r, { s with clk := s.clk + 1, log := s.log ++ [Ev.rx r] })

def xmit_mmc (d : Nat) (s : St) : St := spi_write_blocking d s

def rcvr_mmc (s : St) : Nat × St := spi_read_blocking s

def CS_H (s : St) : St := { s with log := s.log ++ [Ev.cs true] }

def CS_L (s : St) : St := { s with log := s.log ++ [Ev.cs false] }

/-- The loop `do body while (--n);` entered at its test, `k` being the value `--n` has
just produced: `0` leaves the loop, `k + 1` runs the body again and decrements to `k`. -/
def doWhileRest {σ : Type} (body : σ → σ) : Nat → σ → σ
  | 0, s => s
  | k + 1, s => doWhileRest body k (body s)

/-- The loop `do body while (--n);` on a 32-bit unsigned `n`: the body runs once, then
`--n` (which wraps when `n` is `0`) is tested. -/
def doWhileDec {σ : Type} (body : σ → σ) (n : Nat) (s : σ) : σ :=
  doWhileRest body (dec32 n) (body s)

def skip_mmc (n : Nat) (s : St) : St :=
  doWhileDec (spi_write_blocking 0xFF) n s

def release_spi (s : St) : St := (rcvr_mmc (CS_H s)).2

/-! ## Command protocol -/

/-- The response poll of `send_cmd`: `do res = rcvr_mmc(); while ((res & 0x80) && --n);`
with the counter `n` at the start of the body (it is entered with `n = 10`). -/
def send_cmd_resp : Nat → St → Nat × St
  | 0, s => rcvr_mmc s
  | n + 1, s =>
    let r := rcvr_mmc s
    if r.1 &&& 0x80 ≠ 0 ∧ n ≠ 0 then send_cmd_resp n r.2 else r

/-- The parts "Select the card" and "Send a command packet" of `send_cmd`. -/
def send_cmd_packet (cmd arg : Nat) (s : St) : St :=
  let s := (rcvr_mmc (CS_H s)).2
  let s := (rcvr_mmc (CS_L s)).2
  let s := xmit_mmc cmd s
  let s := xmit_mmc ((arg >>> 24) % 256) s
  let s := xmit_mmc ((arg >>> 16) % 256) s
  let s := xmit_mmc ((arg >>> 8) % 256) s
  let s := xmit_mmc (arg % 256) s
  let n := 0x01
  let n := if cmd = CMD0 then 0x95 else n
  let n := if cmd = CMD8 then 0x87 else n
  xmit_mmc n s

/-- The body of `send_cmd` from "Select the card" on: select, command packet, response. -/
def send_cmd_frame (cmd arg : Nat) (s : St) : Nat × St :=
  send_cmd_resp 10 (send_cmd_packet cmd arg s)

/-- The function `send_cmd`. The recursive call `send_cmd(CMD55, 0)` has the top bit of
its command clear, so it is the frame part alone. -/
def send_cmd (cmd arg : Nat) (s : St) : Nat × St :=
  if cmd &&& 0x80 ≠ 0 then
    let cmd := cmd &&& 0x7F
    let r := send_cmd_frame CMD55 0 s
    if r.1 > 1 then r else send_cmd_frame cmd arg r.2
  else send_cmd_frame cmd arg s

/-! ## Initialization -/

/-- The loop `for (tmr = 1000; tmr; tmr--) { if (send_cmd(cmd, arg) == 0) break; DLY_US(1000); }`;
returns the value of `tmr` on leaving the loop. -/
def init_wait (cmd arg : Nat) : Nat → St → Nat × St
  | 0, s => (0, s)
  | tmr + 1, s =>
    let r := send_cmd cmd arg s
    if r.1 = 0 then (tmr + 1, r.2) else init_wait cmd arg tmr r.2

/-- The loop `for (n = 0; n < 4; n++) buf[n] = rcvr_mmc();`; returns `buf[0..3]`. -/
def init_rcvr4 (s : St) : (Nat × Nat × Nat × Nat) × St :=
  let r0 := rcvr_mmc s
  let r1 := rcvr_mmc r0.2
  let r2 := rcvr_mmc r1.2
  let r3 := rcvr_mmc r2.2
  ((r0.1, r1.1, r2.1, r3.1), r3.2)

/-- The card-type negotiation of `disk_initialize`, lines 201-228: returns `ty`. -/
def init_detect (s : St) : Nat × St :=
  let ty := 0
  let r0 := send_cmd CMD0 0 s
  if r0.1 = 1 then
    let r8 := send_cmd CMD8 0x1AA r0.2
    if r8.1 = 1 then
      let buf := init_rcvr4 r8.2
      if buf.1.2.2.1 = 0x01 ∧ buf.1.2.2.2 = 0xAA then
        let w := init_wait ACMD41 (1 <<< 30) 1000 buf.2
        if w.1 ≠ 0 then
          let r58 := send_cmd CMD58 0 w.2
          if r58.1 = 0 then
            let ocr := init_rcvr4 r58.2
            (if ocr.1.1 &&& 0x40 ≠ 0 then CT_SD2 ||| CT_BLOCK else CT_SD2, ocr.2)
          else (ty, r58.2)
        else (ty, w.2)
      else (ty, buf.2)
    else
      let r41 := send_cmd ACMD41 0 r8.2
      let ty := if r41.1 ≤ 1 then CT_SD1 else CT_MMC
      let cmd := if r41.1 ≤ 1 then ACMD41 else CMD1
      let w := init_wait cmd 0 1000 r41.2
      if w.1 = 0 then (0, w.2)
      else
        let r16 := send_cmd CMD16 512 w.2
        if r16.1 ≠ 0 then (0, r16.2) else (ty, r16.2)
  else (ty, r0.2)

def disk_initialize (s : St) : Nat × St :=
  let s := CS_H s
  let s := skip_mmc 10 s
  let d := init_detect s
  let ty := d.1
  let s := { d.2 with CardType := ty }
  let s := release_spi s
  (if ty ≠ 0 then 0 else STA_NOINIT, s)

/-! ## Partial sector read -/

/-- The statement `if (!(CardType & CT_BLOCK)) sector *= 512;` of `disk_readp` and
`disk_writep`: the address sent to the card for `sector`. -/
def byte_address (s : St) (sector : Nat) : Nat :=
  if s.CardType &&& CT_BLOCK = 0 then u32 (sector * 512) else sector

/-- The result of `disk_readp`: the return value, the bytes stored through `buff` (in
the order of `*buff++`), the bytes handed to `FORWARD` (an empty macro in this build;
its arguments are recorded so that the sink can be observed), and the state. -/
structure ReadOut where
  res : DRESULT
  buf : List Nat
  fwd : List Nat
  st : St

/-- The token poll `do { DLY_US(100); d = rcvr_mmc(); } while (d == 0xFF && --tmr);`
with the counter `tmr` at the start of the body (it is entered with `tmr = 1000`). -/
def readp_token : Nat → St → Nat × St
  | 0, s => rcvr_mmc s
  | tmr + 1, s =>
    let r := rcvr_mmc s
    if r.1 = 0xFF ∧ tmr ≠ 0 then readp_token tmr r.2 else r

/-- The body `*buff++ = rcvr_mmc();` (also `d = rcvr_mmc(); FORWARD(d);`): the bytes
delivered so far and the state. -/
def readp_body (p : List Nat × St) : List Nat × St :=
  let r := rcvr_mmc p.2
  (p.1 ++ [r.1], r.2)

/-- The function `disk_readp`; `buff` says whether the buffer pointer is non-NULL. -/
def disk_readp (buff : Bool) (sector offset count : Nat) (s : St) : ReadOut :=
  let sector := byte_address s sector
  let r := send_cmd CMD17 sector s
  if r.1 = 0 then
    let t := readp_token 1000 r.2
    if t.1 = 0xFE then
      let bc := sub32 (sub32 514 offset) count
      let s := if offset ≠ 0 then skip_mmc offset t.2 else t.2
      let p := doWhileDec readp_body count ([], s)
      let s := skip_mmc bc p.2
      let s := release_spi s
      ⟨DRESULT.RES_OK, if buff then p.1 else [], if buff then [] else p.1, s⟩
    else ⟨DRESULT.RES_ERROR, [], [], release_spi t.2⟩
  else ⟨DRESULT.RES_ERROR, [], [], release_spi r.2⟩

/-! ## Partial sector write -/

/-- The loop `while (bc && wc) { xmit_mmc(*buff++); wc--; bc--; }`; `i` is how far
`buff` has advanced, `b i` is the byte at `buff[i]`. -/
def writep_send (b : Nat → Nat) : Nat → Nat → St → St
  | _, 0, s => s
  | i, bc + 1, s =>
    if s.wc ≠ 0 then
      writep_send b (i + 1) bc { xmit_mmc (b i % 256) s with wc := s.wc - 1 }
    else s

/-- The loop `while (bc--) xmit_mmc(0);`. -/
def writep_fill : Nat → St → St
  | 0, s => s
  | bc + 1, s => writep_fill bc (xmit_mmc 0 s)

/-- The loop `for (tmr = 10000; rcvr_mmc() != 0xFF && tmr; tmr--) DLY_US(100);`;
returns the value of `tmr` on leaving the loop. -/
def writep_busy : Nat → St → Nat × St
  | 0, s => (0, (rcvr_mmc s).2)
  | tmr + 1, s =>
    let r := rcvr_mmc s
    if r.1 ≠ 0xFF then writep_busy tmr r.2 else (tmr + 1, r.2)

/-- The function `disk_writep`; `buff` is `none` for a NULL pointer and otherwise gives
the byte at each index of the payload. -/
def disk_writep (buff : Option (Nat → Nat)) (sc : Nat) (s : St) : DRESULT × St :=
  match buff with
  | some b =>
    let bc := u32 sc
    (DRESULT.RES_OK, writep_send b 0 bc s)
  | none =>
    if sc ≠ 0 then
      let sc := byte_address s sc
      let r := send_cmd CMD24 sc s
      if r.1 = 0 then
        let s := xmit_mmc 0xFE (xmit_mmc 0xFF r.2)
        (DRESULT.RES_OK, { s with wc := 512 })
      else (DRESULT.RES_ERROR, r.2)
    else
      let bc := u32 (s.wc + 2)
      let s := writep_fill bc s
      let d := rcvr_mmc s
      if d.1 &&& 0x1F = 0x05 then
        let w := writep_busy 10000 d.2
        (if w.1 ≠ 0 then DRESULT.RES_OK else DRESULT.RES_ERROR, release_spi w.2)
      else (DRESULT.RES_ERROR, release_spi d.2)

/-! ## Observations on the bus log -/

/-- The bytes transmitted (`Ev.tx`) in a piece of bus log, in order. -/
def txBytes : List Ev → List Nat
  | [] => []
  | Ev.tx d :: l => d :: txBytes l
  | _ :: l => txBytes l

/-- The state at power-up before any call: both statics are zero-initialised. -/
def boot (card : Nat → Nat) : St :=
  { CardType := 0, wc := 0, miso := card, clk := 0, log := [] }

/-- A card given by the first bytes it drives; it idles at `0xFF` afterwards. -/
def cardOf (l : List Nat) : Nat → Nat := fun k => l.getD k 0xFF

/-- A card that answers the first command of a run with 0 after the packet and then
sends the start token `0xFE` at once; it idles at `0xFF` afterwards. -/
def cardTokenOnly : Nat → Nat := cardOf (List.replicate 8 0xFF ++ [0x00, 0xFE])

/-- The deterministic 512-byte pattern `0, 1, ..., 255, 0, 1, ..., 255`. -/
def pattern : List Nat := (List.range 512).map (fun i => i % 256)

/-- A card that answers the first command of a run with 0, sends the start token at
once and then streams `pattern` followed by two checksum bytes. -/
def cardPattern : Nat → Nat := fun k =>
  if k < 8 then 0xFF else if k = 8 then 0x00 else if k = 9 then 0xFE
  else if k < 522 then (k - 10) % 256 else 0x12

/-- A sequence of append calls `disk_writep(buff, n)`, each given by its payload and its
byte count, run one after the other. -/
def appendCalls (calls : List ((Nat → Nat) × Nat)) (s : St) : St :=
  calls.foldl (fun st c => (disk_writep (some c.1) c.2 st).2) s

/-- A sequence of `disk_writep` calls of any shape (append, initiate, finalize), each
given by its two arguments, run one after the other. -/
def writeCalls (calls : List (Option (Nat → Nat) × Nat)) (s : St) : St :=
  calls.foldl (fun st c => (disk_writep c.1 c.2 st).2) s

/-- A transport that returns `0xFF` for every byte read: no card, or a card that never
responds. -/
def cardAbsent : Nat → Nat := fun _ => 0xFF

/-- The state after `k` consecutive calls `send_cmd(cmd, arg)`, whatever their responses. -/
def pollN (cmd arg : Nat) : Nat → St → St
  | 0, s => s
  | k + 1, s => pollN cmd arg k (send_cmd cmd arg s).2

/-- A high-capacity SDv2 card at power-up: idle (`0x01`) to CMD0, idle and the echo
`00 00 01 AA` to CMD8, idle to CMD55, ready (`0x00`) to the first ACMD41, `0x00` and the
OCR `C0 00 00 00` to CMD58. Each response is the first byte after the packet. -/
def cardSDHC : Nat → Nat :=
  cardOf (List.replicate 18 0xFF ++ [0x01]
    ++ List.replicate 8 0xFF ++ [0x01, 0x00, 0x00, 0x01, 0xAA]
    ++ List.replicate 8 0xFF ++ [0x01]
    ++ List.replicate 8 0xFF ++ [0x00]
    ++ List.replicate 8 0xFF ++ [0x00, 0xC0, 0x00, 0x00, 0x00])

/-- A card that accepts one block write issued as the first command of a run with no
payload appended: `0x00` to CMD24 (exchange 8), the data response `0x05` after the
514 padding bytes (exchange 525), ready (`0xFF`) on the first busy poll. -/
def cardWriteOk : Nat → Nat := fun k =>
  if k = 8 then 0x00 else if k = 525 then 0x05 else 0xFF

/-- A card that is not yet in idle state when `disk_initialize` resets it (it answers
CMD0 with `0x00`) and afterwards serves a command issued right after the failed
initialization: `0x00` to the command (exchange 28) and the start token (exchange 29). -/
def cardLateReady : Nat → Nat := fun k => if k = 29 then 0xFE else 0x00

/-- The state `t` comes from `s` by bus activity alone: same card, same statics, the
log extended at its end. -/
def Bus (s t : St) : Prop :=
  t.miso = s.miso ∧ t.CardType = s.CardType ∧ t.wc = s.wc ∧ s.clk ≤ t.clk ∧
    ∃ l, t.log = s.log ++ l

/-- A card that accepts a block write of 512 payload bytes issued as the first command
of a run: `0x00` to CMD24 (exchange 8), the data response `0xE5` (low five bits `00101`)
after the payload and the two checksum bytes (exchange 525), busy (`0x00`) on three
polls, then ready (`0xFF`). -/
def cardWriteBusy : Nat → Nat := fun k =>
  if k = 8 then 0x00 else if k = 525 then 0xE5
  else if 526 ≤ k ∧ k ≤ 528 then 0x00 else 0xFF

/-- The state after `m` consecutive calls of `rcvr_mmc()`. -/
def rcvrN : Nat → St → St
  | 0, s => s
  | m + 1, s => rcvrN m (rcvr_mmc s).2

/-- The branch "SDv1 or MMCv3" of `disk_initialize`, lines 215-227, entered in the state
reached after a CMD8 response other than `0x01`: returns `ty`. -/
def init_legacy (s : St) : Nat × St :=
  let r41 := send_cmd ACMD41 0 s
  let ty := if r41.1 ≤ 1 then CT_SD1 else CT_MMC
  let cmd := if r41.1 ≤ 1 then ACMD41 else CMD1
  let w := init_wait cmd 0 1000 r41.2
  if w.1 = 0 then (0, w.2)
  else
    let r16 := send_cmd CMD16 512 w.2
    if r16.1 ≠ 0 then (0, r16.2) else (ty, r16.2)

/-- A card that answers CMD0 and CMD8 with idle (`0x01`) but echoes `00 00 00 00` to
CMD8, and drives `0x00` ever after. -/
def cardBadEcho : Nat → Nat := fun k =>
  if k = 18 ∨ k = 27 then 0x01 else if k < 28 then 0xFF else 0x00

/-- An SDv1 card at power-up: idle to CMD0, illegal command (`0x05`) to CMD8, idle to
CMD55 and to the ACMD41 probe, then idle to CMD55 and ready to ACMD41, `0x00` to CMD16.
Each response is the first byte after the packet. -/
def cardSDv1 : Nat → Nat :=
  cardOf (List.replicate 18 0xFF ++ [0x01]
    ++ List.replicate 8 0xFF ++ [0x05]
    ++ List.replicate 8 0xFF ++ [0x01]
    ++ List.replicate 8 0xFF ++ [0x01]
    ++ List.replicate 8 0xFF ++ [0x01]
    ++ List.replicate 8 0xFF ++ [0x00]
    ++ List.replicate 8 0xFF ++ [0x00])

/-- An MMCv3 card at power-up: idle to CMD0, illegal command (`0x05`) to CMD8 and to
CMD55, ready to the first CMD1, `0x00` to CMD16. -/
def cardMMC : Nat → Nat :=
  cardOf (List.replicate 18 0xFF ++ [0x01]
    ++ List.replicate 8 0xFF ++ [0x05]
    ++ List.replicate 8 0xFF ++ [0x05]
    ++ List.replicate 8 0xFF ++ [0x00]
    ++ List.replicate 8 0xFF ++ [0x00])

/-! ## Transport lemmas -/

@[simp] theorem spi_write_blocking_miso (d : Nat) (s : St) :
    (spi_write_blocking d s).miso = s.miso := rfl
@[simp] theorem spi_write_blocking_clk (d : Nat) (s : St) :
    (spi_write_blocking d s).clk = s.clk + 1 := rfl
@[simp] theorem spi_write_blocking_log (d : Nat) (s : St) :
    (spi_write_blocking d s).log = s.log ++ [Ev.tx d] := rfl
@[simp] theorem spi_write_blocking_wc (d : Nat) (s : St) :
    (spi_write_blocking d s).wc = s.wc := rfl
@[simp] theorem spi_write_blocking_CardType (d : Nat) (s : St) :
    (spi_write_blocking d s).CardType = s.CardType := rfl

@[simp] theorem rcvr_mmc_fst (s : St) : (rcvr_mmc s).1 = s.miso s.clk % 256 := rfl
@[simp] theorem rcvr_mmc_miso (s : St) : (rcvr_mmc s).2.miso = s.miso := rfl
@[simp] theorem rcvr_mmc_clk (s : St) : (rcvr_mmc s).2.clk = s.clk + 1 := rfl
@[simp] theorem rcvr_mmc_log (s : St) :
    (rcvr_mmc s).2.log = s.log ++ [Ev.rx (s.miso s.clk % 256)] := rfl
@[simp] theorem rcvr_mmc_wc (s : St) : (rcvr_mmc s).2.wc = s.wc := rfl
@[simp] theorem rcvr_mmc_CardType (s : St) : (rcvr_mmc s).2.CardType = s.CardType := rfl

@[simp] theorem xmit_mmc_eq (d : Nat) (s : St) : xmit_mmc d s = spi_write_blocking d s := rfl

@[simp] theorem CS_H_miso (s : St) : (CS_H s).miso = s.miso := rfl
@[simp] theorem CS_H_clk (s : St) : (CS_H s).clk = s.clk := rfl
@[simp] theorem CS_H_log (s : St) : (CS_H s).log = s.log ++ [Ev.cs true] := rfl
@[simp] theorem CS_H_wc (s : St) : (CS_H s).wc = s.wc := rfl
@[simp] theorem CS_H_CardType (s : St) : (CS_H s).CardType = s.CardType := rfl
@[simp] theorem CS_L_miso (s : St) : (CS_L s).miso = s.miso := rfl
@[simp] theorem CS_L_clk (s : St) : (CS_L s).clk = s.clk := rfl
@[simp] theorem CS_L_log (s : St) : (CS_L s).log = s.log ++ [Ev.cs false] := rfl
@[simp] theorem CS_L_wc (s : St) : (CS_L s).wc = s.wc := rfl
@[simp] theorem CS_L_CardType (s : St) : (CS_L s).CardType = s.CardType := rfl

theorem txBytes_append (a b : List Ev) : txBytes (a ++ b) = txBytes a ++ txBytes b := by
  induction a with
  | nil => rfl
  | cons e a ih => cases e <;> simp [txBytes, ih]

@[simp] theorem txBytes_nil : txBytes [] = [] := rfl
@[simp] theorem txBytes_tx (d : Nat) (l : List Ev) : txBytes (Ev.tx d :: l) = d :: txBytes l := rfl
@[simp] theorem txBytes_rx (r : Nat) (l : List Ev) : txBytes (Ev.rx r :: l) = txBytes l := rfl
@[simp] theorem txBytes_cs (b : Bool) (l : List Ev) : txBytes (Ev.cs b :: l) = txBytes l := rfl

theorem Bus.refl (s : St) : Bus s s := ⟨rfl, rfl, rfl, le_rfl, [], by simp⟩

theorem Bus.trans {s t u : St} (h1 : Bus s t) (h2 : Bus t u) : Bus s u := by
  obtain ⟨a1, a2, a3, a4, l1, a5⟩ := h1
  obtain ⟨b1, b2, b3, b4, l2, b5⟩ := h2
  exact ⟨b1.trans a1, b2.trans a2, b3.trans a3, a4.trans b4, l1 ++ l2, by
    rw [b5, a5, List.append_assoc]⟩

theorem Bus.write (d : Nat) (s : St) : Bus s (spi_write_blocking d s) :=
  ⟨rfl, rfl, rfl, Nat.le_succ _, _, rfl⟩

theorem Bus.read (s : St) : Bus s (rcvr_mmc s).2 :=
  ⟨rfl, rfl, rfl, Nat.le_succ _, _, rfl⟩

theorem Bus.csH (s : St) : Bus s (CS_H s) := ⟨rfl, rfl, rfl, le_rfl, _, rfl⟩

theorem Bus.csL (s : St) : Bus s (CS_L s) := ⟨rfl, rfl, rfl, le_rfl, _, rfl⟩

theorem Bus.release (s : St) : Bus s (release_spi s) :=
  (Bus.csH s).trans (Bus.read _)

/-! ## The `do ... while (--n)` loops -/

theorem doWhileRest_eq {σ : Type} (body : σ → σ) (k : Nat) (s : σ) :
    doWhileRest body k s = body^[k] s := by
  induction k generalizing s with
  | zero => rfl
  | succ k ih => rw [doWhileRest, ih, Function.iterate_succ_apply]

theorem doWhileDec_eq {σ : Type} (body : σ → σ) (n : Nat) (s : σ) :
    doWhileDec body n s = body^[dec32 n + 1] s := by
  rw [doWhileDec, doWhileRest_eq, Function.iterate_succ_apply]

theorem u32_eq (n : Nat) : u32 n = n % 2 ^ 32 := by unfold u32; rfl

theorem dec32_zero : dec32 0 = 2 ^ 32 - 1 := by
  rw [dec32, u32_eq]; decide

theorem dec32_pos {n : Nat} (h1 : 1 ≤ n) (h2 : n ≤ 2 ^ 32) : dec32 n + 1 = n := by
  rw [dec32, u32_eq]; omega

theorem write_iterate (d k : Nat) (s : St) :
    (spi_write_blocking d)^[k] s =
      { s with clk := s.clk + k, log := s.log ++ List.replicate k (Ev.tx d) } := by
  induction k generalizing s with
  | zero => simp
  | succ k ih =>
    rw [Function.iterate_succ_apply, ih]
    simp [spi_write_blocking, List.replicate_succ, Nat.add_comm 1 k, Nat.add_assoc]

theorem skip_mmc_eq (n : Nat) (s : St) :
    skip_mmc n s = { s with clk := s.clk + (dec32 n + 1),
                            log := s.log ++ List.replicate (dec32 n + 1) (Ev.tx 0xFF) } := by
  rw [skip_mmc, doWhileDec_eq, write_iterate]

theorem Bus.skip (n : Nat) (s : St) : Bus s (skip_mmc n s) := by
  rw [skip_mmc_eq]
  exact ⟨rfl, rfl, rfl, Nat.le_add_right _ _, _, rfl⟩

theorem Bus.xmit (d : Nat) (s : St) : Bus s (xmit_mmc d s) := Bus.write d s

/-! ## Command protocol lemmas -/

theorem send_cmd_resp_log (n : Nat) (s : St) :
    ∃ l, (send_cmd_resp n s).2.log = s.log ++ l ∧ txBytes l = [] := by
  induction n generalizing s with
  | zero => exact ⟨_, rfl, rfl⟩
  | succ n ih =>
    rw [send_cmd_resp]
    by_cases h : (rcvr_mmc s).1 &&& 0x80 ≠ 0 ∧ n ≠ 0
    · obtain ⟨l, h1, h2⟩ := ih (rcvr_mmc s).2
      refine ⟨Ev.rx (s.miso s.clk % 256) :: l, ?_, by simpa using h2⟩
      rw [if_pos h, h1]; simp
    · exact ⟨[Ev.rx (s.miso s.clk % 256)], by rw [if_neg h]; rfl, rfl⟩

theorem Bus.resp (n : Nat) (s : St) : Bus s (send_cmd_resp n s).2 := by
  induction n generalizing s with
  | zero => exact Bus.read s
  | succ n ih =>
    rw [send_cmd_resp]
    by_cases h : (rcvr_mmc s).1 &&& 0x80 ≠ 0 ∧ n ≠ 0
    · rw [if_pos h]
      exact (Bus.read s).trans (ih _)
    · rw [if_neg h]
      exact Bus.read s

theorem send_cmd_packet_miso (cmd arg : Nat) (s : St) :
    (send_cmd_packet cmd arg s).miso = s.miso := by
  unfold send_cmd_packet
  simp only [xmit_mmc_eq, spi_write_blocking_miso, rcvr_mmc_miso, CS_L_miso, CS_H_miso]

theorem send_cmd_packet_clk (cmd arg : Nat) (s : St) :
    (send_cmd_packet cmd arg s).clk = s.clk + 8 := by
  unfold send_cmd_packet
  simp only [xmit_mmc_eq, spi_write_blocking_clk, rcvr_mmc_clk, CS_L_clk, CS_H_clk,
    Nat.add_assoc]

theorem send_cmd_packet_wc (cmd arg : Nat) (s : St) :
    (send_cmd_packet cmd arg s).wc = s.wc := by
  unfold send_cmd_packet
  simp only [xmit_mmc_eq, spi_write_blocking_wc, rcvr_mmc_wc, CS_L_wc, CS_H_wc]

theorem send_cmd_packet_CardType (cmd arg : Nat) (s : St) :
    (send_cmd_packet cmd arg s).CardType = s.CardType := by
  unfold send_cmd_packet
  simp only [xmit_mmc_eq, spi_write_blocking_CardType, rcvr_mmc_CardType, CS_L_CardType,
    CS_H_CardType]

theorem send_cmd_packet_log (cmd arg : Nat) (s : St) :
    (send_cmd_packet cmd arg s).log = s.log ++
      [Ev.cs true, Ev.rx (s.miso s.clk % 256), Ev.cs false, Ev.rx (s.miso (s.clk + 1) % 256),
        Ev.tx cmd, Ev.tx ((arg >>> 24) % 256), Ev.tx ((arg >>> 16) % 256),
        Ev.tx ((arg >>> 8) % 256), Ev.tx (arg % 256),
        Ev.tx (if cmd = CMD8 then 0x87 else if cmd = CMD0 then 0x95 else 0x01)] := by
  unfold send_cmd_packet
  simp only [xmit_mmc_eq, spi_write_blocking_log, rcvr_mmc_log, CS_L_log, CS_H_log,
    CS_L_miso, CS_L_clk, rcvr_mmc_miso, rcvr_mmc_clk, CS_H_miso, CS_H_clk,
    List.append_assoc, List.cons_append, List.nil_append]

theorem Bus.packet (cmd arg : Nat) (s : St) : Bus s (send_cmd_packet cmd arg s) :=
  ⟨send_cmd_packet_miso cmd arg s, send_cmd_packet_CardType cmd arg s,
    send_cmd_packet_wc cmd arg s, by rw [send_cmd_packet_clk]; exact Nat.le_add_right _ _,
    _, send_cmd_packet_log cmd arg s⟩

theorem send_cmd_frame_log (cmd arg : Nat) (s : St) :
    ∃ l, (send_cmd_frame cmd arg s).2.log = s.log ++ l ∧
      txBytes l = [cmd, (arg >>> 24) % 256, (arg >>> 16) % 256, (arg >>> 8) % 256, arg % 256,
        if cmd = CMD8 then 0x87 else if cmd = CMD0 then 0x95 else 0x01] := by
  unfold send_cmd_frame
  obtain ⟨l, h1, h2⟩ := send_cmd_resp_log 10 (send_cmd_packet cmd arg s)
  rw [h1, send_cmd_packet_log, List.append_assoc]
  exact ⟨_, rfl, by simp [txBytes_append, h2]⟩

theorem Bus.frame (cmd arg : Nat) (s : St) : Bus s (send_cmd_frame cmd arg s).2 :=
  (Bus.packet cmd arg s).trans (Bus.resp _ _)

theorem Bus.cmd (cmd arg : Nat) (s : St) : Bus s (send_cmd cmd arg s).2 := by
  unfold send_cmd
  dsimp only
  by_cases h : cmd &&& 0x80 ≠ 0
  · rw [if_pos h]
    by_cases h1 : (send_cmd_frame CMD55 0 s).1 > 1
    · rw [if_pos h1]; exact Bus.frame _ _ _
    · rw [if_neg h1]; exact (Bus.frame _ _ _).trans (Bus.frame _ _ _)
  · rw [if_neg h]; exact Bus.frame _ _ _

theorem send_cmd_plain {cmd : Nat} (h : cmd &&& 0x80 = 0) (arg : Nat) (s : St) :
    send_cmd cmd arg s = send_cmd_frame cmd arg s := by
  simp [send_cmd, h]

theorem Bus.init_wait (cmd arg tmr : Nat) (s : St) : Bus s (init_wait cmd arg tmr s).2 := by
  induction tmr generalizing s with
  | zero => exact Bus.refl s
  | succ n ih =>
    rw [Mmcbbp.init_wait]
    by_cases h : (send_cmd cmd arg s).1 = 0
    · rw [if_pos h]; exact Bus.cmd _ _ _
    · rw [if_neg h]; exact (Bus.cmd _ _ _).trans (ih _)

theorem Bus.rcvr4 (s : St) : Bus s (init_rcvr4 s).2 := by
  unfold init_rcvr4
  dsimp only
  refine Bus.trans ?_ (Bus.read _)
  refine Bus.trans ?_ (Bus.read _)
  refine Bus.trans ?_ (Bus.read _)
  exact Bus.read _

theorem Bus.detect (s : St) : Bus s (init_detect s).2 := by
  unfold init_detect
  dsimp only
  have c0 := Bus.cmd CMD0 0 s
  split_ifs
  · exact c0.trans ((Bus.cmd _ _ _).trans ((Bus.rcvr4 _).trans ((Bus.init_wait _ _ _ _).trans
      ((Bus.cmd _ _ _).trans (Bus.rcvr4 _)))))
  · exact c0.trans ((Bus.cmd _ _ _).trans ((Bus.rcvr4 _).trans ((Bus.init_wait _ _ _ _).trans
      ((Bus.cmd _ _ _).trans (Bus.rcvr4 _)))))
  · exact c0.trans ((Bus.cmd _ _ _).trans ((Bus.rcvr4 _).trans ((Bus.init_wait _ _ _ _).trans
      (Bus.cmd _ _ _))))
  · exact c0.trans ((Bus.cmd _ _ _).trans ((Bus.rcvr4 _).trans (Bus.init_wait _ _ _ _)))
  · exact c0.trans ((Bus.cmd _ _ _).trans (Bus.rcvr4 _))
  all_goals first
    | exact c0
    | exact c0.trans ((Bus.cmd _ _ _).trans ((Bus.cmd _ _ _).trans (Bus.init_wait _ _ _ _)))
    | exact c0.trans ((Bus.cmd _ _ _).trans ((Bus.cmd _ _ _).trans ((Bus.init_wait _ _ _ _).trans
        (Bus.cmd _ _ _))))

theorem Bus.token (tmr : Nat) (s : St) : Bus s (readp_token tmr s).2 := by
  induction tmr generalizing s with
  | zero => exact Bus.read s
  | succ n ih =>
    rw [readp_token]
    by_cases h : (rcvr_mmc s).1 = 0xFF ∧ n ≠ 0
    · rw [if_pos h]; exact (Bus.read s).trans (ih _)
    · rw [if_neg h]; exact Bus.read s

theorem Bus.body_iterate (k : Nat) (p : List Nat × St) : Bus p.2 (readp_body^[k] p).2 := by
  induction k generalizing p with
  | zero => exact Bus.refl _
  | succ k ih =>
    rw [Function.iterate_succ_apply]
    exact Bus.trans (Bus.read p.2) (ih (readp_body p))

theorem Bus.fill (bc : Nat) (s : St) : Bus s (writep_fill bc s) := by
  induction bc generalizing s with
  | zero => exact Bus.refl s
  | succ n ih => rw [writep_fill]; exact (Bus.xmit 0 s).trans (ih _)

theorem Bus.busy (tmr : Nat) (s : St) : Bus s (writep_busy tmr s).2 := by
  induction tmr generalizing s with
  | zero => exact Bus.read s
  | succ n ih =>
    rw [writep_busy]
    by_cases h : (rcvr_mmc s).1 ≠ 0xFF
    · rw [if_pos h]; exact (Bus.read s).trans (ih _)
    · rw [if_neg h]; exact Bus.read s

/-- What follows the command in `disk_readp` is bus activity alone. -/
theorem Bus.readp (buff : Bool) (sector offset count : Nat) (s : St) :
    Bus (send_cmd CMD17 (byte_address s sector) s).2
      (disk_readp buff sector offset count s).st := by
  unfold disk_readp
  dsimp only
  generalize send_cmd CMD17 (byte_address s sector) s = r
  by_cases h1 : r.1 = 0
  · rw [if_pos h1]
    have ht := Bus.token 1000 r.2
    generalize readp_token 1000 r.2 = t at ht ⊢
    by_cases h2 : t.1 = 0xFE
    · rw [if_pos h2, doWhileDec_eq]
      have hs : Bus r.2 (if offset ≠ 0 then skip_mmc offset t.2 else t.2) := by
        split_ifs
        · exact ht.trans (Bus.skip _ _)
        · exact ht
      have hb := hs.trans (Bus.body_iterate (dec32 count + 1)
        ([], if offset ≠ 0 then skip_mmc offset t.2 else t.2))
      exact (hb.trans (Bus.skip (sub32 (sub32 514 offset) count) _)).trans (Bus.release _)
    · rw [if_neg h2]; exact ht.trans (Bus.release _)
  · rw [if_neg h1]; exact Bus.release _

theorem be32_decode {a : Nat} (h : a < 2 ^ 32) :
    (a >>> 24) % 256 * 2 ^ 24 + (a >>> 16) % 256 * 2 ^ 16 + (a >>> 8) % 256 * 2 ^ 8 + a % 256
      = a := by
  simp only [Nat.shiftRight_eq_div_pow]
  omega

theorem u32_lt (n : Nat) : u32 n < 2 ^ 32 := by
  rw [u32_eq]; exact Nat.mod_lt _ (by decide)

theorem drop_log_append (a l : List Ev) : (a ++ l).drop a.length = l := by
  simp

/-- The bytes transmitted by a call that starts with the packet of a plain command. -/
theorem take5_tx_of_frame {cmd arg : Nat} {s : St} {tlog : List Ev}
    (h : ∃ l, tlog = (send_cmd_frame cmd arg s).2.log ++ l) :
    (txBytes (tlog.drop s.log.length)).take 5 =
      [cmd, (arg >>> 24) % 256, (arg >>> 16) % 256, (arg >>> 8) % 256, arg % 256] := by
  obtain ⟨l1, h1, h2⟩ := send_cmd_frame_log cmd arg s
  obtain ⟨l2, h3⟩ := h
  rw [h3, h1, List.append_assoc, drop_log_append, txBytes_append, h2]
  rfl

theorem Bus.initiate {sc : Nat} (h : sc ≠ 0) (s : St) :
    ∃ l, (disk_writep none sc s).2.log =
      (send_cmd CMD24 (byte_address s sc) s).2.log ++ l := by
  unfold disk_writep
  dsimp only
  rw [if_pos h]
  generalize byte_address s sc = addr
  by_cases h1 : (send_cmd CMD24 addr s).1 = 0
  · rw [if_pos h1]; exact ⟨[Ev.tx 0xFF, Ev.tx 0xFE], by simp⟩
  · rw [if_neg h1]; exact ⟨[], by simp⟩

/-- C1: for every 32-bit sector number and every CardType, the four argument bytes
that `disk_readp` sends with CMD17, and that `disk_writep` in its initiate shape (no
payload, non-zero sector) sends with CMD24, are the most-significant-byte-first encoding
of `sector * 512` (as a 32-bit unsigned value) when the block-addressing flag is clear
in CardType, and of `sector` itself when the flag is set. -/
theorem C1_sector_address (s : St) (sector : Nat) (h32 : sector < 2 ^ 32) :
    ∃ b3 b2 b1 b0 : Nat, b3 < 256 ∧ b2 < 256 ∧ b1 < 256 ∧ b0 < 256 ∧
      b3 * 2 ^ 24 + b2 * 2 ^ 16 + b1 * 2 ^ 8 + b0 =
        (if s.CardType &&& CT_BLOCK = 0 then sector * 512 % 2 ^ 32 else sector) ∧
      (∀ buff offset count,
        (txBytes ((disk_readp buff sector offset count s).st.log.drop s.log.length)).take 5
          = [CMD17, b3, b2, b1, b0]) ∧
      (sector ≠ 0 →
        (txBytes ((disk_writep none sector s).2.log.drop s.log.length)).take 5
          = [CMD24, b3, b2, b1, b0]) := by
  obtain ⟨addr, haddr⟩ : ∃ a, a = byte_address s sector := ⟨_, rfl⟩
  have hlt : addr < 2 ^ 32 := by
    rw [haddr, byte_address]
    split_ifs
    · exact u32_lt _
    · exact h32
  have h256 : ∀ n : Nat, n % 256 < 256 := fun n => Nat.mod_lt _ (by decide)
  refine ⟨(addr >>> 24) % 256, (addr >>> 16) % 256, (addr >>> 8) % 256, addr % 256,
    h256 _, h256 _, h256 _, h256 _, (be32_decode hlt).trans (by rw [haddr, byte_address, u32_eq]), ?_, ?_⟩
  · intro buff offset count
    have hb := (Bus.readp buff sector offset count s).2.2.2.2
    rw [← haddr, send_cmd_plain (by decide)] at hb
    exact take5_tx_of_frame hb
  · intro hne
    have hb := Bus.initiate hne s
    rw [← haddr, send_cmd_plain (by decide)] at hb
    exact take5_tx_of_frame hb

/-- C1 at sector 5 of a byte-addressed card: the argument bytes encode 2560. -/
theorem C1_sector_address_witness :
    ∃ b3 b2 b1 b0 : Nat, b3 < 256 ∧ b2 < 256 ∧ b1 < 256 ∧ b0 < 256 ∧
      b3 * 2 ^ 24 + b2 * 2 ^ 16 + b1 * 2 ^ 8 + b0 =
        (if (boot (cardOf [])).CardType &&& CT_BLOCK = 0 then 5 * 512 % 2 ^ 32 else 5) ∧
      (∀ buff offset count,
        (txBytes ((disk_readp buff 5 offset count (boot (cardOf []))).st.log.drop
          (boot (cardOf [])).log.length)).take 5 = [CMD17, b3, b2, b1, b0]) ∧
      (5 ≠ 0 →
        (txBytes ((disk_writep none 5 (boot (cardOf []))).2.log.drop
          (boot (cardOf [])).log.length)).take 5 = [CMD24, b3, b2, b1, b0]) :=
  C1_sector_address (boot (cardOf [])) 5 (by decide)

/-! ## Partial sector read lemmas -/

theorem body_iterate_eq (k : Nat) (acc : List Nat) (s : St) :
    (readp_body^[k] (acc, s)).1 = acc ++ (List.range k).map (fun i => s.miso (s.clk + i) % 256) ∧
    (readp_body^[k] (acc, s)).2.clk = s.clk + k ∧ (readp_body^[k] (acc, s)).2.miso = s.miso := by
  induction k with
  | zero => simp
  | succ k ih =>
    obtain ⟨h1, h2, h3⟩ := ih
    rw [Function.iterate_succ_apply']
    refine ⟨?_, ?_, ?_⟩
    · simp only [readp_body, rcvr_mmc_fst, h1, h2, h3, List.range_succ, List.map_append,
        List.map_cons, List.map_nil, List.append_assoc]
    · simp only [readp_body, rcvr_mmc_clk, h2]; rfl
    · simp only [readp_body, rcvr_mmc_miso, h3]

theorem readp_token_found (n j d : Nat) (s : St) (hj : j < n)
    (hwait : ∀ i, i < j → s.miso (s.clk + i) % 256 = 0xFF)
    (htok : s.miso (s.clk + j) % 256 = d) (hd : d ≠ 0xFF) :
    (readp_token n s).1 = d ∧ (readp_token n s).2.clk = s.clk + j + 1 := by
  induction n generalizing s j with
  | zero => exact absurd hj (Nat.not_lt_zero _)
  | succ n ih =>
    rw [readp_token]
    cases j with
    | zero =>
      have h0 : (rcvr_mmc s).1 = d := by simpa using htok
      have hc : ¬((rcvr_mmc s).1 = 0xFF ∧ n ≠ 0) := fun h => hd (h0 ▸ h.1)
      rw [if_neg hc]
      exact ⟨h0, rfl⟩
    | succ j =>
      have h0 : (rcvr_mmc s).1 = 0xFF := by simpa using hwait 0 (Nat.succ_pos _)
      have hn : n ≠ 0 := by omega
      rw [if_pos ⟨h0, hn⟩]
      have := ih j (rcvr_mmc s).2 (by omega)
        (fun i hi => by
          have := hwait (i + 1) (by omega)
          simpa [Nat.add_assoc, Nat.add_comm 1 i] using this)
        (by simpa [Nat.add_assoc, Nat.add_comm 1 j] using htok)
      simpa [Nat.add_assoc, Nat.add_comm 1 j] using this

/-- The run of `disk_readp` once the command is answered with 0 and the token poll ends
on `0xFE` in state `t`: where the delivered bytes come from on the wire and how many
exchanges follow. -/
theorem disk_readp_data (buff : Bool) (sector offset count : Nat) (s t : St)
    (hr : (send_cmd CMD17 (byte_address s sector) s).1 = 0)
    (ht : readp_token 1000 (send_cmd CMD17 (byte_address s sector) s).2 = (0xFE, t)) :
    (disk_readp buff sector offset count s).res = DRESULT.RES_OK ∧
    (disk_readp buff sector offset count s).buf = (if buff then (List.range (dec32 count + 1)).map
      (fun i => s.miso (t.clk + (if offset ≠ 0 then dec32 offset + 1 else 0) + i) % 256)
      else []) ∧
    (disk_readp buff sector offset count s).fwd = (if buff then [] else
      (List.range (dec32 count + 1)).map
      (fun i => s.miso (t.clk + (if offset ≠ 0 then dec32 offset + 1 else 0) + i) % 256)) ∧
    (disk_readp buff sector offset count s).st.clk =
      t.clk + (if offset ≠ 0 then dec32 offset + 1 else 0) + (dec32 count + 1)
        + (dec32 (sub32 (sub32 514 offset) count) + 1) + 1 := by
  have hm : t.miso = s.miso := by
    have := ((Bus.cmd CMD17 (byte_address s sector) s).trans (Bus.token 1000 _)).1
    rw [ht] at this
    exact this
  unfold disk_readp
  dsimp only
  rw [if_pos hr, ht]
  dsimp only
  rw [if_pos rfl, doWhileDec_eq]
  obtain ⟨h1, h2, -⟩ := body_iterate_eq (dec32 count + 1) []
    (if offset ≠ 0 then skip_mmc offset t else t)
  have hclk : (if offset ≠ 0 then skip_mmc offset t else t).clk =
      t.clk + (if offset ≠ 0 then dec32 offset + 1 else 0) := by
    split_ifs
    · rw [skip_mmc_eq]
    · rfl
  have hmiso : (if offset ≠ 0 then skip_mmc offset t else t).miso = s.miso := by
    split_ifs
    · rw [skip_mmc_eq]; exact hm
    · exact hm
  rw [hclk, hmiso, List.nil_append] at h1
  rw [hclk] at h2
  generalize readp_body^[dec32 count + 1] ([], if offset ≠ 0 then skip_mmc offset t else t) = p
    at h1 h2 ⊢
  have h4 : (release_spi (skip_mmc (sub32 (sub32 514 offset) count) p.2)).clk =
      t.clk + (if offset ≠ 0 then dec32 offset + 1 else 0) + (dec32 count + 1)
        + (dec32 (sub32 (sub32 514 offset) count) + 1) + 1 := by
    rw [release_spi, rcvr_mmc_clk, CS_H_clk, skip_mmc_eq, h2]
  refine ⟨rfl, ?_, ?_, h4⟩
  · show (if buff = true then p.1 else []) = _
    rw [h1]
  · show (if buff = true then [] else p.1) = _
    rw [h1]

theorem drop_take_eq_map_range (l : List Nat) (o c : Nat) (h : o + c ≤ l.length) :
    (l.drop o).take c = (List.range c).map (fun i => l.getD (o + i) 0) := by
  apply List.ext_getElem
  · simp; omega
  · intro i h1 h2
    simp at h1
    simp [List.getElem_take, List.getElem_drop, List.getD_eq_getElem, show o + i < l.length by omega]

/-- The exchanges of a successful `disk_readp` with `count ≥ 1`: `count` bytes are
delivered and exactly 514 bytes are exchanged between the start token and the release. -/
theorem disk_readp_wire (buff : Bool) (sector offset count : Nat) (s t : St)
    (hcount : 1 ≤ count) (hrange : offset + count ≤ 512)
    (hr : (send_cmd CMD17 (byte_address s sector) s).1 = 0)
    (ht : readp_token 1000 (send_cmd CMD17 (byte_address s sector) s).2 = (0xFE, t)) :
    (disk_readp buff sector offset count s).res = DRESULT.RES_OK ∧
    (disk_readp buff sector offset count s).buf = (if buff then (List.range count).map
      (fun i => s.miso (t.clk + offset + i) % 256) else []) ∧
    (disk_readp buff sector offset count s).fwd = (if buff then [] else
      (List.range count).map (fun i => s.miso (t.clk + offset + i) % 256)) ∧
    (disk_readp buff sector offset count s).st.clk = t.clk + 514 + 1 := by
  obtain ⟨h1, h2, h3, h4⟩ := disk_readp_data buff sector offset count s t hr ht
  have hc : dec32 count + 1 = count := dec32_pos hcount (by omega)
  have ho : (if offset ≠ 0 then dec32 offset + 1 else 0) = offset := by
    split_ifs with h
    · exact dec32_pos (by omega) (by omega)
    · omega
  have hb : dec32 (sub32 (sub32 514 offset) count) + 1 = 514 - offset - count := by
    have : sub32 (sub32 514 offset) count = 514 - offset - count := by
      rw [sub32, sub32, u32_eq, u32_eq]; omega
    rw [this]
    exact dec32_pos (by omega) (by omega)
  rw [hc, ho] at h2 h3 h4
  rw [hb] at h4
  exact ⟨h1, h2, h3, by rw [h4]; omega⟩

/-- C2 (failing input): `disk_readp` with a buffer, sector 0, offset 0 and count 0
against a card that answers CMD17 with 0 and sends the start token at once (the token is
the 10th exchange). The loop `do ... while (--count)` runs its body before the test and
`--count` wraps, so 2^32 bytes are stored through `buff` and 2^32 + 514 bytes are
exchanged after the start token, where the claim asks for no byte delivered and 514
bytes exchanged. -/
theorem C2_count_zero_overrun :
    (readp_token 1000 (send_cmd CMD17 (byte_address (boot cardTokenOnly) 0)
      (boot cardTokenOnly)).2).2.clk = 10 ∧
    (disk_readp true 0 0 0 (boot cardTokenOnly)).res = DRESULT.RES_OK ∧
    (disk_readp true 0 0 0 (boot cardTokenOnly)).buf.length = 2 ^ 32 ∧
    (disk_readp true 0 0 0 (boot cardTokenOnly)).st.clk = 10 + (2 ^ 32 + 514) + 1 := by
  have hr : (send_cmd CMD17 (byte_address (boot cardTokenOnly) 0) (boot cardTokenOnly)).1 = 0 := by
    decide!
  have hclk : (readp_token 1000 (send_cmd CMD17 (byte_address (boot cardTokenOnly) 0)
      (boot cardTokenOnly)).2).2.clk = 10 := by decide!
  have ht : readp_token 1000 (send_cmd CMD17 (byte_address (boot cardTokenOnly) 0)
      (boot cardTokenOnly)).2 = (0xFE, (readp_token 1000 (send_cmd CMD17
        (byte_address (boot cardTokenOnly) 0) (boot cardTokenOnly)).2).2) :=
    Prod.ext (by decide!) rfl
  obtain ⟨h1, h2, -, h4⟩ := disk_readp_data true 0 0 0 (boot cardTokenOnly) _ hr ht
  have hb : dec32 (sub32 (sub32 514 0) 0) + 1 = 514 := by decide!
  refine ⟨hclk, h1, ?_, ?_⟩
  · rw [h2, if_pos rfl, List.length_map, List.length_range, dec32_zero]
    decide
  · rw [h4, hclk, hb, dec32_zero, if_neg (by decide)]
    decide

/-- C3: for every sector, offset and count with `count ≥ 1` and `offset + count ≤ 512`,
and every 512-byte payload, if the card answers CMD17 with 0, sends the start token
`0xFE` as the first non-`0xFF` byte within the 1000 token polls (after `j` polls), and
then streams the payload followed by two checksum bytes, `disk_readp` with a destination
buffer returns Ok and the buffer holds `payload[offset .. offset+count-1]` in order. -/
theorem C3_readp_buffer (s : St) (sector offset count j : Nat) (payload : List Nat)
    (hcount : 1 ≤ count) (hrange : offset + count ≤ 512) (hlen : payload.length = 512)
    (hresp : (send_cmd CMD17 (byte_address s sector) s).1 = 0)
    (hj : j < 1000)
    (hwait : ∀ i, i < j →
      s.miso ((send_cmd CMD17 (byte_address s sector) s).2.clk + i) % 256 = 0xFF)
    (htok : s.miso ((send_cmd CMD17 (byte_address s sector) s).2.clk + j) % 256 = 0xFE)
    (hdata : ∀ i, i < 512 →
      s.miso ((send_cmd CMD17 (byte_address s sector) s).2.clk + j + 1 + i) % 256
        = payload.getD i 0) :
    (disk_readp true sector offset count s).res = DRESULT.RES_OK ∧
    (disk_readp true sector offset count s).buf = (payload.drop offset).take count := by
  have hm : (send_cmd CMD17 (byte_address s sector) s).2.miso = s.miso :=
    (Bus.cmd CMD17 (byte_address s sector) s).1
  obtain ⟨t1, t2⟩ := readp_token_found 1000 j 0xFE
    (send_cmd CMD17 (byte_address s sector) s).2 hj
    (by rw [hm]; exact hwait) (by rw [hm]; exact htok) (by decide)
  have ht : readp_token 1000 (send_cmd CMD17 (byte_address s sector) s).2 =
      (0xFE, (readp_token 1000 (send_cmd CMD17 (byte_address s sector) s).2).2) :=
    Prod.ext t1 rfl
  obtain ⟨h1, h2, -, -⟩ :=
    disk_readp_wire true sector offset count s _ hcount hrange hresp ht
  refine ⟨h1, ?_⟩
  rw [h2, if_pos rfl, drop_take_eq_map_range payload offset count (by omega), t2]
  apply List.map_congr_left
  intro i hi
  have hi' : i < count := List.mem_range.mp hi
  have := hdata (offset + i) (by omega)
  rw [← this]
  congr 2
  omega

theorem cardPattern_clk :
    (send_cmd CMD17 (byte_address (boot cardPattern) 5) (boot cardPattern)).2.clk = 9 := by
  decide!

theorem cardPattern_data : ∀ i, i < 512 →
    (boot cardPattern).miso ((send_cmd CMD17 (byte_address (boot cardPattern) 5)
      (boot cardPattern)).2.clk + 0 + 1 + i) % 256 = pattern.getD i 0 := by
  intro i hi
  have h1 : ¬ (9 + 0 + 1 + i < 8) := by omega
  have h2 : ¬ (9 + 0 + 1 + i = 8) := by omega
  have h3 : ¬ (9 + 0 + 1 + i = 9) := by omega
  have h4 : 9 + 0 + 1 + i < 522 := by omega
  have h5 : i < pattern.length := by simp [pattern]; exact hi
  rw [cardPattern_clk]
  show cardPattern (9 + 0 + 1 + i) % 256 = _
  rw [cardPattern, if_neg h1, if_neg h2, if_neg h3, if_pos h4, List.getD_eq_getElem _ _ h5]
  simp [pattern]

/-- C3 at the scenario of the spec: sector 5, offset 10, count 20 against a card that
sends the start token at once and then the 512-byte pattern gives pattern bytes 10 up to
but excluding 30. -/
theorem C3_readp_buffer_witness :
    ((disk_readp true 5 10 20 (boot cardPattern)).res = DRESULT.RES_OK ∧
      (disk_readp true 5 10 20 (boot cardPattern)).buf = (pattern.drop 10).take 20) ∧
    (pattern.drop 10).take 20 =
      [10, 11, 12, 13, 14, 15, 16, 17, 18, 19, 20, 21, 22, 23, 24, 25, 26, 27, 28, 29] :=
  ⟨C3_readp_buffer (boot cardPattern) 5 10 20 0 pattern (by decide) (by decide)
    (by simp [pattern]) (by decide!) (by decide) (fun i hi => absurd hi (Nat.not_lt_zero i))
    (by decide!) cardPattern_data, by decide!⟩

/-! ## Partial sector write lemmas -/

theorem writep_send_wc (b : Nat → Nat) (i bc : Nat) (s : St) :
    (writep_send b i bc s).wc = s.wc - bc := by
  induction bc generalizing i s with
  | zero => rfl
  | succ bc ih =>
    rw [writep_send]
    by_cases h : s.wc ≠ 0
    · rw [if_pos h, ih]
      show s.wc - 1 - bc = s.wc - (bc + 1)
      omega
    · rw [if_neg h]
      omega

theorem append_wc (b : Nat → Nat) (n : Nat) (s : St) :
    (disk_writep (some b) n s).2.wc = s.wc - u32 n := by
  show (writep_send b 0 (u32 n) s).wc = _
  exact writep_send_wc b 0 (u32 n) s

theorem appendCalls_snoc (calls : List ((Nat → Nat) × Nat)) (c : (Nat → Nat) × Nat) (s : St) :
    appendCalls (calls ++ [c]) s = (disk_writep (some c.1) c.2 (appendCalls calls s)).2 := by
  simp [appendCalls, List.foldl_append]

theorem appendCalls_wc (calls : List ((Nat → Nat) × Nat)) (s : St) :
    (appendCalls calls s).wc = s.wc - (calls.map (fun c => u32 c.2)).sum := by
  induction calls generalizing s with
  | nil => simp [appendCalls]
  | cons c cs ih =>
    have : appendCalls (c :: cs) s = appendCalls cs (disk_writep (some c.1) c.2 s).2 := rfl
    rw [this, ih, append_wc, List.map_cons, List.sum_cons]
    omega

theorem initiate_ok_wc {sector : Nat} (hsec : sector ≠ 0) (s : St)
    (h : (disk_writep none sector s).1 = DRESULT.RES_OK) :
    (disk_writep none sector s).2.wc = 512 := by
  unfold disk_writep at h ⊢
  dsimp only at h ⊢
  rw [if_pos hsec] at h ⊢
  by_cases hr : (send_cmd CMD24 (byte_address s sector) s).1 = 0
  · rw [if_pos hr]
  · rw [if_neg hr] at h
    exact DRESULT.noConfusion h

theorem sum_u32_of_le (calls : List ((Nat → Nat) × Nat))
    (h : (calls.map Prod.snd).sum ≤ 512) :
    (calls.map (fun c => u32 c.2)).sum = (calls.map Prod.snd).sum := by
  induction calls with
  | nil => rfl
  | cons c cs ih =>
    simp only [List.map_cons, List.sum_cons] at h ⊢
    rw [ih (by omega), u32_eq, Nat.mod_eq_of_lt (by omega)]

/-- C4: starting from the state just after a successful write initiate (the write
counter is 512), for every sequence of append calls with positive byte counts the write
counter never increases from one call to the next, and for every sequence whose counts
sum to exactly 512 the counter is exactly 0 after the last call and was greater than 0
before the last call. -/
theorem C4_append_countdown (s0 : St) (sector : Nat) (hsec : sector ≠ 0)
    (hinit : (disk_writep none sector s0).1 = DRESULT.RES_OK) :
    (disk_writep none sector s0).2.wc = 512 ∧
    (∀ (calls : List ((Nat → Nat) × Nat)) (c : (Nat → Nat) × Nat),
      (∀ x ∈ calls, 0 < x.2) → 0 < c.2 →
      (appendCalls (calls ++ [c]) (disk_writep none sector s0).2).wc
        ≤ (appendCalls calls (disk_writep none sector s0).2).wc) ∧
    (∀ (calls : List ((Nat → Nat) × Nat)) (c : (Nat → Nat) × Nat),
      (∀ x ∈ calls, 0 < x.2) → 0 < c.2 → (calls.map Prod.snd).sum + c.2 = 512 →
      0 < (appendCalls calls (disk_writep none sector s0).2).wc ∧
      (appendCalls (calls ++ [c]) (disk_writep none sector s0).2).wc = 0) := by
  have h512 := initiate_ok_wc hsec s0 hinit
  refine ⟨h512, ?_, ?_⟩
  · intro calls c _ _
    rw [appendCalls_snoc, append_wc]
    exact Nat.sub_le _ _
  · intro calls c _ hc hsum
    have h1 := sum_u32_of_le calls (by omega)
    have h2 : u32 c.2 = c.2 := by rw [u32_eq, Nat.mod_eq_of_lt (by omega)]
    rw [appendCalls_snoc, append_wc, appendCalls_wc, h512, h1, h2]
    omega

/-- C4 at sector 7 of a card that accepts the write command. -/
theorem C4_append_countdown_witness :
    (disk_writep none 7 (boot cardTokenOnly)).2.wc = 512 ∧
    (∀ (calls : List ((Nat → Nat) × Nat)) (c : (Nat → Nat) × Nat),
      (∀ x ∈ calls, 0 < x.2) → 0 < c.2 →
      (appendCalls (calls ++ [c]) (disk_writep none 7 (boot cardTokenOnly)).2).wc
        ≤ (appendCalls calls (disk_writep none 7 (boot cardTokenOnly)).2).wc) ∧
    (∀ (calls : List ((Nat → Nat) × Nat)) (c : (Nat → Nat) × Nat),
      (∀ x ∈ calls, 0 < x.2) → 0 < c.2 → (calls.map Prod.snd).sum + c.2 = 512 →
      0 < (appendCalls calls (disk_writep none 7 (boot cardTokenOnly)).2).wc ∧
      (appendCalls (calls ++ [c]) (disk_writep none 7 (boot cardTokenOnly)).2).wc = 0) :=
  C4_append_countdown (boot cardTokenOnly) 7 (by decide) (by decide!)

theorem writep_fill_eq (bc : Nat) (s : St) :
    writep_fill bc s =
      { s with clk := s.clk + bc, log := s.log ++ List.replicate bc (Ev.tx 0) } := by
  induction bc generalizing s with
  | zero => simp [writep_fill]
  | succ bc ih =>
    rw [writep_fill, ih]
    simp [spi_write_blocking, List.replicate_succ, Nat.add_comm 1 bc, Nat.add_assoc]

/-- The state in which the finalize shape of `disk_writep` leaves the bus before it
deselects: padding, data response, and the busy poll when the response is accepted. -/
theorem finalize_eq (s : St) :
    (disk_writep none 0 s).2 =
      release_spi (if (rcvr_mmc (writep_fill (u32 (s.wc + 2)) s)).1 &&& 0x1F = 0x05
        then (writep_busy 10000 (rcvr_mmc (writep_fill (u32 (s.wc + 2)) s)).2).2
        else (rcvr_mmc (writep_fill (u32 (s.wc + 2)) s)).2) := by
  unfold disk_writep
  dsimp only
  rw [if_neg (by decide)]
  split_ifs <;> rfl

theorem Bus.finalize (s : St) : Bus s (disk_writep none 0 s).2 := by
  rw [finalize_eq]
  refine Bus.trans ?_ (Bus.release _)
  split_ifs
  · exact ((Bus.fill _ s).trans (Bus.read _)).trans (Bus.busy _ _)
  · exact (Bus.fill _ s).trans (Bus.read _)

theorem finalize_log (s : St) :
    ∃ rest, (disk_writep none 0 s).2.log =
      s.log ++ List.replicate (u32 (s.wc + 2)) (Ev.tx 0)
        ++ Ev.rx (s.miso (s.clk + u32 (s.wc + 2)) % 256) :: rest := by
  have hrd : (rcvr_mmc (writep_fill (u32 (s.wc + 2)) s)).2.log =
      s.log ++ List.replicate (u32 (s.wc + 2)) (Ev.tx 0)
        ++ [Ev.rx (s.miso (s.clk + u32 (s.wc + 2)) % 256)] := by
    rw [rcvr_mmc_log, writep_fill_eq]
  have hb : Bus (rcvr_mmc (writep_fill (u32 (s.wc + 2)) s)).2 (disk_writep none 0 s).2 := by
    rw [finalize_eq]
    refine Bus.trans ?_ (Bus.release _)
    split_ifs
    · exact Bus.busy _ _
    · exact Bus.refl _
  obtain ⟨l, hl⟩ := hb.2.2.2.2
  exact ⟨l, by rw [hl, hrd]; simp⟩

theorem writep_wc_le (buff : Option (Nat → Nat)) (sc : Nat) (s : St) (h : s.wc ≤ 512) :
    (disk_writep buff sc s).2.wc ≤ 512 := by
  cases buff with
  | some b => rw [append_wc]; omega
  | none =>
    by_cases hsc : sc = 0
    · subst hsc
      rw [(Bus.finalize s).2.2.1]; exact h
    · unfold disk_writep
      dsimp only
      rw [if_pos hsc]
      by_cases hr : (send_cmd CMD24 (byte_address s sc) s).1 = 0
      · rw [if_pos hr]
      · rw [if_neg hr, (Bus.cmd _ _ s).2.2.1]; exact h

theorem writeCalls_wc_le (calls : List (Option (Nat → Nat) × Nat)) (s : St) (h : s.wc ≤ 512) :
    (writeCalls calls s).wc ≤ 512 := by
  induction calls generalizing s with
  | nil => exact h
  | cons c cs ih => exact ih _ (writep_wc_le c.1 c.2 s h)

/-- C5: for every value of the write counter reachable by any sequence of
initiate/append/finalize calls (from the zero-initialised counter), `disk_writep` in its
finalize shape transmits exactly `wc + 2` bytes, every one of them `0x00`, before it reads
the data-response byte. -/
theorem C5_finalize_padding (s0 : St) (h0 : s0.wc = 0)
    (calls : List (Option (Nat → Nat) × Nat)) :
    ∃ rest, (disk_writep none 0 (writeCalls calls s0)).2.log =
      (writeCalls calls s0).log ++ List.replicate ((writeCalls calls s0).wc + 2) (Ev.tx 0)
        ++ Ev.rx ((writeCalls calls s0).miso
            ((writeCalls calls s0).clk + ((writeCalls calls s0).wc + 2)) % 256) :: rest := by
  have hle := writeCalls_wc_le calls s0 (by omega)
  have hu : u32 ((writeCalls calls s0).wc + 2) = (writeCalls calls s0).wc + 2 := by
    rw [u32_eq, Nat.mod_eq_of_lt (by omega)]
  have := finalize_log (writeCalls calls s0)
  rw [hu] at this
  exact this

/-- C5 after an initiate and an append of 100 bytes: 414 zero bytes are transmitted. -/
theorem C5_finalize_padding_witness :
    (writeCalls [(none, 7), (some (fun _ => 0xA5), 100)] (boot cardTokenOnly)).wc = 412 ∧
    ∃ rest, (disk_writep none 0
        (writeCalls [(none, 7), (some (fun _ => 0xA5), 100)] (boot cardTokenOnly))).2.log =
      (writeCalls [(none, 7), (some (fun _ => 0xA5), 100)] (boot cardTokenOnly)).log
        ++ List.replicate
          ((writeCalls [(none, 7), (some (fun _ => 0xA5), 100)] (boot cardTokenOnly)).wc + 2)
          (Ev.tx 0)
        ++ Ev.rx ((writeCalls [(none, 7), (some (fun _ => 0xA5), 100)] (boot cardTokenOnly)).miso
            ((writeCalls [(none, 7), (some (fun _ => 0xA5), 100)] (boot cardTokenOnly)).clk
              + ((writeCalls [(none, 7), (some (fun _ => 0xA5), 100)] (boot cardTokenOnly)).wc
                + 2)) % 256) :: rest :=
  ⟨by decide!, C5_finalize_padding (boot cardTokenOnly) rfl
    [(none, 7), (some (fun _ => 0xA5), 100)]⟩

/-! ## An unresponsive card -/

theorem resp_ff (n : Nat) (s : St) (hn : 1 ≤ n) (hff : ∀ k, s.miso k % 256 = 0xFF) :
    (send_cmd_resp n s).1 = 0xFF ∧ (send_cmd_resp n s).2.clk = s.clk + n := by
  induction n generalizing s with
  | zero => omega
  | succ n ih =>
    rw [send_cmd_resp]
    have h1 : (rcvr_mmc s).1 = 0xFF := hff _
    by_cases hn0 : n = 0
    · have hc : ¬((rcvr_mmc s).1 &&& 0x80 ≠ 0 ∧ n ≠ 0) := fun h => h.2 hn0
      rw [if_neg hc, hn0]
      exact ⟨h1, rfl⟩
    · have hc : (rcvr_mmc s).1 &&& 0x80 ≠ 0 ∧ n ≠ 0 := ⟨by rw [h1]; decide, hn0⟩
      rw [if_pos hc]
      obtain ⟨a, b⟩ := ih (rcvr_mmc s).2 (by omega) hff
      exact ⟨a, by rw [b, rcvr_mmc_clk]; omega⟩

theorem frame_ff (cmd arg : Nat) (s : St) (hff : ∀ k, s.miso k % 256 = 0xFF) :
    (send_cmd_frame cmd arg s).1 = 0xFF ∧ (send_cmd_frame cmd arg s).2.clk = s.clk + 18 := by
  obtain ⟨a, b⟩ := resp_ff 10 (send_cmd_packet cmd arg s) (by decide) hff
  exact ⟨a, by rw [send_cmd_frame, b, send_cmd_packet_clk]⟩

theorem init_detect_abort (s : St) (h : (send_cmd CMD0 0 s).1 ≠ 1) :
    init_detect s = (0, (send_cmd CMD0 0 s).2) := by
  unfold init_detect
  dsimp only
  rw [if_neg h]

theorem disk_readp_reject (buff : Bool) (sector offset count : Nat) (s : St)
    (h : (send_cmd CMD17 (byte_address s sector) s).1 ≠ 0) :
    disk_readp buff sector offset count s =
      ⟨DRESULT.RES_ERROR, [], [], release_spi (send_cmd CMD17 (byte_address s sector) s).2⟩ := by
  unfold disk_readp
  dsimp only
  rw [if_neg h]

@[simp] theorem release_spi_CardType (s : St) : (release_spi s).CardType = s.CardType := rfl
@[simp] theorem release_spi_wc (s : St) : (release_spi s).wc = s.wc := rfl
@[simp] theorem release_spi_miso (s : St) : (release_spi s).miso = s.miso := rfl
@[simp] theorem release_spi_clk (s : St) : (release_spi s).clk = s.clk + 1 := rfl
@[simp] theorem release_spi_log (s : St) :
    (release_spi s).log = s.log ++ [Ev.cs true, Ev.rx (s.miso s.clk % 256)] := by
  simp [release_spi]

/-- The shape of `disk_initialize`: preamble, negotiation, store of `CardType`, release. -/
theorem disk_initialize_eq (s : St) :
    disk_initialize s =
      (if (init_detect (skip_mmc 10 (CS_H s))).1 ≠ 0 then 0 else STA_NOINIT,
        release_spi { (init_detect (skip_mmc 10 (CS_H s))).2 with
          CardType := (init_detect (skip_mmc 10 (CS_H s))).1 }) := by
  unfold disk_initialize
  rfl

theorem disk_initialize_abort (s : St)
    (h : (send_cmd CMD0 0 (skip_mmc 10 (CS_H s))).1 ≠ 1) :
    disk_initialize s =
      (STA_NOINIT, release_spi { (send_cmd CMD0 0 (skip_mmc 10 (CS_H s))).2 with
        CardType := 0 }) := by
  rw [disk_initialize_eq, init_detect_abort _ h]
  rfl

theorem preamble_clk (s : St) : (skip_mmc 10 (CS_H s)).clk = s.clk + 10 := by
  rw [skip_mmc_eq, dec32_pos (by decide) (by decide)]
  rfl

theorem preamble_miso (s : St) : (skip_mmc 10 (CS_H s)).miso = s.miso := by
  rw [skip_mmc_eq]
  rfl

/-- C6: against a transport that returns `0xFF` for every byte read, each of
`disk_initialize`, `disk_readp` (for every sector, offset, count) and `disk_writep` in
finalize shape ends after a bounded number of byte exchanges (29, 19, and `wc + 4` taken
as a 32-bit value) and returns a failure result: `disk_initialize` returns
not-initialized with `CardType` empty, `disk_readp` returns Error, finalize returns
Error. -/
theorem C6_unresponsive_card (s : St) (hff : ∀ k, s.miso k % 256 = 0xFF) :
    (( disk_initialize s).1 = STA_NOINIT ∧ ( disk_initialize s).2.CardType = 0 ∧
      ( disk_initialize s).2.clk = s.clk + 29) ∧
    (∀ buff sector offset count,
      (disk_readp buff sector offset count s).res = DRESULT.RES_ERROR ∧
      (disk_readp buff sector offset count s).st.clk = s.clk + 19) ∧
    ((disk_writep none 0 s).1 = DRESULT.RES_ERROR ∧
      (disk_writep none 0 s).2.clk = s.clk + u32 (s.wc + 2) + 2 ∧
      (disk_writep none 0 s).2.clk < s.clk + 2 ^ 32 + 2) := by
  refine ⟨?_, ?_, ?_⟩
  · have h0 := frame_ff CMD0 0 (skip_mmc 10 (CS_H s)) (by rw [preamble_miso]; exact hff)
    rw [← send_cmd_plain (by decide)] at h0
    have hne : (send_cmd CMD0 0 (skip_mmc 10 (CS_H s))).1 ≠ 1 := by rw [h0.1]; decide
    rw [disk_initialize_abort s hne]
    refine ⟨rfl, rfl, ?_⟩
    show (send_cmd CMD0 0 (skip_mmc 10 (CS_H s))).2.clk + 1 = _
    rw [h0.2, preamble_clk]
  · intro buff sector offset count
    have h0 := frame_ff CMD17 (byte_address s sector) s hff
    rw [← send_cmd_plain (by decide)] at h0
    have hne : (send_cmd CMD17 (byte_address s sector) s).1 ≠ 0 := by rw [h0.1]; decide
    rw [disk_readp_reject buff sector offset count s hne]
    refine ⟨rfl, ?_⟩
    show (send_cmd CMD17 (byte_address s sector) s).2.clk + 1 = _
    rw [h0.2]
  · have hd : (rcvr_mmc (writep_fill (u32 (s.wc + 2)) s)).1 = 0xFF := by
      rw [rcvr_mmc_fst, writep_fill_eq]
      exact hff _
    have hc : ¬ ((rcvr_mmc (writep_fill (u32 (s.wc + 2)) s)).1 &&& 0x1F = 0x05) := by
      rw [hd]; decide
    have hclk : (disk_writep none 0 s).2.clk = s.clk + u32 (s.wc + 2) + 2 := by
      rw [finalize_eq, if_neg hc, release_spi_clk, rcvr_mmc_clk, writep_fill_eq]
    refine ⟨?_, hclk, ?_⟩
    · unfold disk_writep
      dsimp only
      rw [if_neg (by decide), if_neg hc]
    · rw [hclk]
      have := u32_lt (s.wc + 2)
      omega

/-- C6 at power-up with no card in the slot. -/
theorem C6_unresponsive_card_witness :
    (( disk_initialize (boot cardAbsent)).1 = STA_NOINIT ∧
      ( disk_initialize (boot cardAbsent)).2.CardType = 0 ∧
      ( disk_initialize (boot cardAbsent)).2.clk = (boot cardAbsent).clk + 29) ∧
    (∀ buff sector offset count,
      (disk_readp buff sector offset count (boot cardAbsent)).res = DRESULT.RES_ERROR ∧
      (disk_readp buff sector offset count (boot cardAbsent)).st.clk
        = (boot cardAbsent).clk + 19) ∧
    ((disk_writep none 0 (boot cardAbsent)).1 = DRESULT.RES_ERROR ∧
      (disk_writep none 0 (boot cardAbsent)).2.clk
        = (boot cardAbsent).clk + u32 ((boot cardAbsent).wc + 2) + 2 ∧
      (disk_writep none 0 (boot cardAbsent)).2.clk < (boot cardAbsent).clk + 2 ^ 32 + 2) :=
  C6_unresponsive_card (boot cardAbsent) (fun _ => rfl)

/-! ## Initialization lemmas -/

theorem init_wait_ready (cmd arg tmr k : Nat) (s : St) (hk : k < tmr)
    (hbusy : ∀ j, j < k → (send_cmd cmd arg (pollN cmd arg j s)).1 ≠ 0)
    (hready : (send_cmd cmd arg (pollN cmd arg k s)).1 = 0) :
    init_wait cmd arg tmr s = (tmr - k, (send_cmd cmd arg (pollN cmd arg k s)).2) := by
  induction tmr generalizing s k with
  | zero => omega
  | succ tmr ih =>
    rw [init_wait]
    cases k with
    | zero =>
      have h0 : (send_cmd cmd arg s).1 = 0 := hready
      rw [if_pos h0]
      rfl
    | succ k =>
      have h0 : ¬ (send_cmd cmd arg s).1 = 0 := hbusy 0 (Nat.succ_pos _)
      rw [if_neg h0, ih k (send_cmd cmd arg s).2 (by omega)
        (fun j hj => hbusy (j + 1) (by omega)) hready]
      have : tmr + 1 - (k + 1) = tmr - k := by omega
      rw [this]
      rfl

theorem init_rcvr4_fst (s : St) :
    (init_rcvr4 s).1 = (s.miso s.clk % 256, s.miso (s.clk + 1) % 256,
      s.miso (s.clk + 2) % 256, s.miso (s.clk + 3) % 256) := rfl

/-- The negotiation on the SDv2 path when every step succeeds. -/
theorem init_detect_sdv2 (s : St) (k : Nat) (s1 s2 s4 s5 : St)
    (h0 : send_cmd CMD0 0 s = (1, s1))
    (h8 : send_cmd CMD8 0x1AA s1 = (1, s2))
    (hecho : s2.miso (s2.clk + 2) % 256 = 0x01 ∧ s2.miso (s2.clk + 3) % 256 = 0xAA)
    (hk : k < 1000)
    (hbusy : ∀ j, j < k →
      (send_cmd ACMD41 0x40000000 (pollN ACMD41 0x40000000 j (init_rcvr4 s2).2)).1 ≠ 0)
    (hready : send_cmd ACMD41 0x40000000 (pollN ACMD41 0x40000000 k (init_rcvr4 s2).2)
      = (0, s4))
    (h58 : send_cmd CMD58 0 s4 = (0, s5)) :
    init_detect s =
      (if s5.miso s5.clk % 256 &&& 0x40 ≠ 0 then CT_SD2 ||| CT_BLOCK else CT_SD2,
        (init_rcvr4 s5).2) := by
  have hw : init_wait ACMD41 (1 <<< 30) 1000 (init_rcvr4 s2).2 = (1000 - k, s4) := by
    have h30 : (1 <<< 30 : Nat) = 0x40000000 := by decide
    rw [h30, init_wait_ready ACMD41 0x40000000 1000 k _ hk hbusy (by rw [hready]), hready]
  have he : (init_rcvr4 s2).1.2.2.1 = 0x01 ∧ (init_rcvr4 s2).1.2.2.2 = 0xAA := by
    rw [init_rcvr4_fst]; exact hecho
  unfold init_detect
  dsimp only
  rw [h0]
  dsimp only
  rw [if_pos rfl, h8]
  dsimp only
  rw [if_pos rfl, if_pos he, hw]
  dsimp only
  rw [if_pos (by omega), h58]
  dsimp only
  rw [if_pos rfl, init_rcvr4_fst]

/-- C7: for every card that answers the reset command with `0x01`, answers the
interface-condition command (argument `0x1AA`) with `0x01` followed by four bytes whose
last two are `0x01` and `0xAA`, answers the SD operation-condition command (sent with
argument `0x40000000`) with 0 within the 1000 attempts (on poll `k + 1`), and answers the
OCR query with 0, `disk_initialize` returns Ready (0) and sets `CardType` to
SDv2+BlockAddressing (`0x0C`) when bit 6 (`0x40`) of the first OCR byte is set and to SDv2
alone (`0x04`) when that bit is clear. -/
theorem C7_init_sdv2 (s : St) (k : Nat) (s1 s2 s4 s5 : St)
    (h0 : send_cmd CMD0 0 (skip_mmc 10 (CS_H s)) = (1, s1))
    (h8 : send_cmd CMD8 0x1AA s1 = (1, s2))
    (hecho : s2.miso (s2.clk + 2) % 256 = 0x01 ∧ s2.miso (s2.clk + 3) % 256 = 0xAA)
    (hk : k < 1000)
    (hbusy : ∀ j, j < k →
      (send_cmd ACMD41 0x40000000 (pollN ACMD41 0x40000000 j (init_rcvr4 s2).2)).1 ≠ 0)
    (hready : send_cmd ACMD41 0x40000000 (pollN ACMD41 0x40000000 k (init_rcvr4 s2).2)
      = (0, s4))
    (h58 : send_cmd CMD58 0 s4 = (0, s5)) :
    ( disk_initialize s).1 = 0 ∧
    ( disk_initialize s).2.CardType
      = (if s5.miso s5.clk % 256 &&& 0x40 ≠ 0 then 0x0C else 0x04) := by
  rw [disk_initialize_eq, init_detect_sdv2 _ k s1 s2 s4 s5 h0 h8 hecho hk hbusy hready h58]
  by_cases hb : s5.miso s5.clk % 256 &&& 0x40 ≠ 0
  · rw [if_pos hb, if_pos hb]
    exact ⟨rfl, rfl⟩
  · rw [if_neg hb, if_neg hb]
    exact ⟨rfl, rfl⟩

/-- C7 at the scenario of the spec: ready on the first poll with the high-capacity bit
set gives SDv2+BlockAddressing. -/
theorem C7_init_sdv2_witness :
    ( disk_initialize (boot cardSDHC)).1 = 0 ∧
    ( disk_initialize (boot cardSDHC)).2.CardType = 0x0C :=
  have h := C7_init_sdv2 (boot cardSDHC) 0 _ _ _ _
    (Prod.ext (by decide!) rfl) (Prod.ext (by decide!) rfl) (by decide!) (by decide)
    (fun j hj => absurd hj (Nat.not_lt_zero j))
    (Prod.ext (by decide!) rfl) (Prod.ext (by decide!) rfl)
  ⟨h.1, h.2.trans (by decide!)⟩

/-- C8 (counterexample): a session is initiated at sector 7 and finalized at once, both
calls returning Ok; finalize leaves the write counter at 512, so the next append call
transmits its byte `0xAB` to the card and takes the counter to 511, where the claim
asks for no byte transmitted and a counter at zero. -/
theorem C8_counterexample :
    (disk_writep none 7 (boot cardWriteOk)).1 = DRESULT.RES_OK ∧
    (disk_writep none 0 (disk_writep none 7 (boot cardWriteOk)).2).1 = DRESULT.RES_OK ∧
    (disk_writep none 0 (disk_writep none 7 (boot cardWriteOk)).2).2.wc = 512 ∧
    txBytes ((disk_writep (some (fun _ => 0xAB)) 1
        (disk_writep none 0 (disk_writep none 7 (boot cardWriteOk)).2).2).2.log.drop
      (disk_writep none 0 (disk_writep none 7 (boot cardWriteOk)).2).2.log.length) = [0xAB] ∧
    (disk_writep (some (fun _ => 0xAB)) 1
      (disk_writep none 0 (disk_writep none 7 (boot cardWriteOk)).2).2).2.wc = 511 := by
  refine ⟨?_, ?_, ?_, ?_, ?_⟩ <;> decide!

theorem writep_send_idle (b : Nat → Nat) (i bc : Nat) (s : St) (h : s.wc = 0) :
    writep_send b i bc s = s := by
  cases bc with
  | zero => rfl
  | succ bc => rw [writep_send, if_neg (by rw [h]; exact fun h => h rfl)]

/-- C8 (amended): whenever the write counter is zero, `disk_writep` in append shape
(any payload, any byte count) transmits no byte, leaves the whole state (the counter
included) as it was, and returns Ok; and from a zero counter the only call that takes
the counter off zero is an initiate that returns Ok (it sets the counter to 512). -/
theorem C8_append_idle (s : St) (h : s.wc = 0) :
    (∀ (b : Nat → Nat) (n : Nat), disk_writep (some b) n s = (DRESULT.RES_OK, s)) ∧
    (∀ (buff : Option (Nat → Nat)) (sc : Nat),
      (disk_writep buff sc s).2.wc = 0 ∨
      (buff = none ∧ sc ≠ 0 ∧ (disk_writep buff sc s).1 = DRESULT.RES_OK ∧
        (disk_writep buff sc s).2.wc = 512)) := by
  have ha : ∀ (b : Nat → Nat) (n : Nat), disk_writep (some b) n s = (DRESULT.RES_OK, s) := by
    intro b n
    show (DRESULT.RES_OK, writep_send b 0 (u32 n) s) = _
    rw [writep_send_idle b 0 (u32 n) s h]
  refine ⟨ha, ?_⟩
  intro buff sc
  cases buff with
  | some b => left; rw [ha]; exact h
  | none =>
    by_cases hsc : sc = 0
    · left
      subst hsc
      rw [(Bus.finalize s).2.2.1]; exact h
    · by_cases hr : (send_cmd CMD24 (byte_address s sc) s).1 = 0
      · right
        refine ⟨rfl, hsc, ?_, ?_⟩
        all_goals
          unfold disk_writep
          dsimp only
          rw [if_pos hsc, if_pos hr]
      · left
        unfold disk_writep
        dsimp only
        rw [if_pos hsc, if_neg hr, (Bus.cmd _ _ s).2.2.1]; exact h

/-- C8 (amended) at power-up, where the counter is zero-initialised. -/
theorem C8_append_idle_witness :
    (∀ (b : Nat → Nat) (n : Nat),
      disk_writep (some b) n (boot cardAbsent) = (DRESULT.RES_OK, boot cardAbsent)) ∧
    (∀ (buff : Option (Nat → Nat)) (sc : Nat),
      (disk_writep buff sc (boot cardAbsent)).2.wc = 0 ∨
      (buff = none ∧ sc ≠ 0 ∧ (disk_writep buff sc (boot cardAbsent)).1 = DRESULT.RES_OK ∧
        (disk_writep buff sc (boot cardAbsent)).2.wc = 512)) :=
  C8_append_idle (boot cardAbsent) rfl

/-- C9 (counterexample): the card answers CMD0 with `0x00`, so `disk_initialize` reports
not-initialized and stores the empty `CardType`; the driver then still sends the next
read and the next write initiate to the card, and both return Ok because the card
answers them, where the claim asks for Error. -/
theorem C9_counterexample :
    ( disk_initialize (boot cardLateReady)).1 = STA_NOINIT ∧
    ( disk_initialize (boot cardLateReady)).2.CardType = 0 ∧
    (disk_readp true 0 0 1 ( disk_initialize (boot cardLateReady)).2).res = DRESULT.RES_OK ∧
    (disk_writep none 1 ( disk_initialize (boot cardLateReady)).2).1 = DRESULT.RES_OK := by
  refine ⟨?_, ?_, ?_, ?_⟩ <;> decide!

/-- The result of `disk_readp` is decided by the command response and the token alone. -/
theorem disk_readp_res (buff : Bool) (sector offset count : Nat) (s : St) :
    (disk_readp buff sector offset count s).res = DRESULT.RES_ERROR ↔
      ((send_cmd CMD17 (byte_address s sector) s).1 ≠ 0 ∨
        (readp_token 1000 (send_cmd CMD17 (byte_address s sector) s).2).1 ≠ 0xFE) := by
  unfold disk_readp
  dsimp only
  by_cases h1 : (send_cmd CMD17 (byte_address s sector) s).1 = 0
  · rw [if_pos h1]
    by_cases h2 : (readp_token 1000 (send_cmd CMD17 (byte_address s sector) s).2).1 = 0xFE
    · rw [if_pos h2]
      constructor
      · intro h; exact DRESULT.noConfusion h
      · intro h; rcases h with h | h
        · exact absurd h1 h
        · exact absurd h2 h
    · rw [if_neg h2]
      exact ⟨fun _ => Or.inr h2, fun _ => rfl⟩
  · rw [if_neg h1]
    exact ⟨fun _ => Or.inl h1, fun _ => rfl⟩

/-- The result of the initiate shape of `disk_writep` is decided by the command response
alone, and the call leaves `CardType` as it was. -/
theorem initiate_res {sc : Nat} (hsc : sc ≠ 0) (s : St) :
    ((disk_writep none sc s).1 = DRESULT.RES_ERROR ↔
      (send_cmd CMD24 (byte_address s sc) s).1 ≠ 0) ∧
    (disk_writep none sc s).2.CardType = s.CardType := by
  unfold disk_writep
  dsimp only
  rw [if_pos hsc]
  by_cases hr : (send_cmd CMD24 (byte_address s sc) s).1 = 0
  · rw [if_pos hr]
    refine ⟨⟨fun h => DRESULT.noConfusion h, fun h => absurd hr h⟩, ?_⟩
    exact (Bus.cmd CMD24 (byte_address s sc) s).2.1
  · rw [if_neg hr]
    exact ⟨⟨fun _ => hr, fun _ => rfl⟩, (Bus.cmd CMD24 (byte_address s sc) s).2.1⟩

theorem disk_initialize_fst (s : St) :
    ( disk_initialize s).1 = if ( disk_initialize s).2.CardType ≠ 0 then 0 else STA_NOINIT := by
  rw [disk_initialize_eq]
  rfl

/-- C9 (amended): after `disk_initialize` has reported not-initialized, `CardType` is the
empty set and stays so across `disk_readp` and initiate calls, but the driver does not
refuse these calls: each is sent to the card byte-addressed (`sector * 512`), and it
returns Error exactly when the card's response to CMD17 or CMD24 is non-zero or, for a
read, the token poll does not end on `0xFE`. -/
theorem C9_not_initialized (s0 : St) (h : ( disk_initialize s0).1 = STA_NOINIT) :
    ( disk_initialize s0).2.CardType = 0 ∧
    ∀ sector : Nat,
      (∀ (buff : Bool) (offset count : Nat),
        ((disk_readp buff sector offset count ( disk_initialize s0).2).res = DRESULT.RES_ERROR ↔
          ((send_cmd CMD17 (u32 (sector * 512)) ( disk_initialize s0).2).1 ≠ 0 ∨
            (readp_token 1000
              (send_cmd CMD17 (u32 (sector * 512)) ( disk_initialize s0).2).2).1 ≠ 0xFE)) ∧
        (disk_readp buff sector offset count ( disk_initialize s0).2).st.CardType = 0) ∧
      (sector ≠ 0 →
        ((disk_writep none sector ( disk_initialize s0).2).1 = DRESULT.RES_ERROR ↔
          (send_cmd CMD24 (u32 (sector * 512)) ( disk_initialize s0).2).1 ≠ 0) ∧
        (disk_writep none sector ( disk_initialize s0).2).2.CardType = 0) := by
  have hct : ( disk_initialize s0).2.CardType = 0 := by
    by_contra hne
    rw [disk_initialize_fst, if_pos hne] at h
    exact absurd h (by decide)
  refine ⟨hct, ?_⟩
  intro sector
  have haddr : byte_address ( disk_initialize s0).2 sector = u32 (sector * 512) := by
    rw [byte_address, hct]; rfl
  refine ⟨?_, ?_⟩
  · intro buff offset count
    have h1 := disk_readp_res buff sector offset count ( disk_initialize s0).2
    have h2 := ((Bus.cmd CMD17 (byte_address ( disk_initialize s0).2 sector)
      ( disk_initialize s0).2).trans (Bus.readp buff sector offset count _)).2.1
    rw [haddr] at h1
    exact ⟨h1, h2.trans hct⟩
  · intro hne
    have h1 := initiate_res hne ( disk_initialize s0).2
    rw [haddr] at h1
    exact ⟨h1.1, h1.2.trans hct⟩

/-- C9 (amended) with no card in the slot. -/
theorem C9_not_initialized_witness :
    ( disk_initialize (boot cardAbsent)).2.CardType = 0 ∧
    ∀ sector : Nat,
      (∀ (buff : Bool) (offset count : Nat),
        ((disk_readp buff sector offset count ( disk_initialize (boot cardAbsent)).2).res
            = DRESULT.RES_ERROR ↔
          ((send_cmd CMD17 (u32 (sector * 512)) ( disk_initialize (boot cardAbsent)).2).1 ≠ 0 ∨
            (readp_token 1000 (send_cmd CMD17 (u32 (sector * 512))
              ( disk_initialize (boot cardAbsent)).2).2).1 ≠ 0xFE)) ∧
        (disk_readp buff sector offset count
          ( disk_initialize (boot cardAbsent)).2).st.CardType = 0) ∧
      (sector ≠ 0 →
        ((disk_writep none sector ( disk_initialize (boot cardAbsent)).2).1
            = DRESULT.RES_ERROR ↔
          (send_cmd CMD24 (u32 (sector * 512)) ( disk_initialize (boot cardAbsent)).2).1 ≠ 0) ∧
        (disk_writep none sector ( disk_initialize (boot cardAbsent)).2).2.CardType = 0) :=
  C9_not_initialized (boot cardAbsent) (by decide!)

theorem txBytes_replicate_tx (n d : Nat) :
    txBytes (List.replicate n (Ev.tx d)) = List.replicate n d := by
  induction n with
  | zero => rfl
  | succ n ih => rw [List.replicate_succ, txBytes_tx, ih, List.replicate_succ]

theorem preamble_log (s : St) :
    (skip_mmc 10 (CS_H s)).log = s.log ++ Ev.cs true :: List.replicate 10 (Ev.tx 0xFF) := by
  rw [skip_mmc_eq, dec32_pos (by decide) (by decide)]
  simp

/-- C10: for every card behaviour, `disk_initialize` returns Ready (0) if and only if the
`CardType` it stores is non-empty; and if the response to the reset command (CMD0,
argument 0) is anything other than `0x01` (idle), `disk_initialize` sends no further
command (all it transmits is the ten filler bytes and the CMD0 packet, and after the
CMD0 response it only deselects), stores the empty `CardType` and returns
not-initialized. -/
theorem C10_init_result (s : St) :
    (( disk_initialize s).1 = 0 ↔ ( disk_initialize s).2.CardType ≠ 0) ∧
    ((send_cmd CMD0 0 (skip_mmc 10 (CS_H s))).1 ≠ 1 →
      ( disk_initialize s).1 = STA_NOINIT ∧ ( disk_initialize s).2.CardType = 0 ∧
      (∃ r, ( disk_initialize s).2.log =
        (send_cmd CMD0 0 (skip_mmc 10 (CS_H s))).2.log ++ [Ev.cs true, Ev.rx r]) ∧
      txBytes (( disk_initialize s).2.log.drop s.log.length) =
        List.replicate 10 0xFF ++ [0x40, 0, 0, 0, 0, 0x95]) := by
  constructor
  · rw [disk_initialize_fst]
    by_cases h : ( disk_initialize s).2.CardType ≠ 0
    · rw [if_pos h]; exact ⟨fun _ => h, fun _ => rfl⟩
    · rw [if_neg h]; exact ⟨fun h' => absurd h' (by decide), fun h' => absurd h' h⟩
  · intro h
    rw [disk_initialize_abort s h]
    refine ⟨rfl, rfl, ⟨_, release_spi_log _⟩, ?_⟩
    obtain ⟨l, h1, h2⟩ := send_cmd_frame_log CMD0 0 (skip_mmc 10 (CS_H s))
    rw [release_spi_log]
    show txBytes (((send_cmd CMD0 0 (skip_mmc 10 (CS_H s))).2.log ++ _).drop s.log.length) = _
    rw [send_cmd_plain (by decide), h1, preamble_log, List.append_assoc, List.append_assoc,
      drop_log_append, List.cons_append, txBytes_cs, txBytes_append, txBytes_append,
      txBytes_replicate_tx, h2]
    rfl

/-- C10 with no card in the slot: the reset command times out on `0xFF`. -/
theorem C10_init_result_witness :
    ( disk_initialize (boot cardAbsent)).1 = STA_NOINIT ∧
    ( disk_initialize (boot cardAbsent)).2.CardType = 0 ∧
    (∃ r, ( disk_initialize (boot cardAbsent)).2.log =
      (send_cmd CMD0 0 (skip_mmc 10 (CS_H (boot cardAbsent)))).2.log
        ++ [Ev.cs true, Ev.rx r]) ∧
    txBytes (( disk_initialize (boot cardAbsent)).2.log.drop (boot cardAbsent).log.length) =
      List.replicate 10 0xFF ++ [0x40, 0, 0, 0, 0, 0x95] :=
  (C10_init_result (boot cardAbsent)).2 (by decide!)

/-! ## Append and initiate -/

theorem writep_send_log (b : Nat → Nat) (i bc : Nat) (s : St) :
    (writep_send b i bc s).log =
      s.log ++ (List.range (min bc s.wc)).map (fun j => Ev.tx (b (i + j) % 256)) := by
  induction bc generalizing i s with
  | zero => simp [writep_send]
  | succ bc ih =>
    rw [writep_send]
    by_cases h : s.wc ≠ 0
    · rw [if_pos h, ih]
      have hm : min (bc + 1) s.wc = min bc (s.wc - 1) + 1 := by omega
      rw [hm, List.range_succ_eq_map, List.map_cons, List.map_map]
      show (s.log ++ [Ev.tx (b i % 256)]) ++
        List.map (fun j => Ev.tx (b (i + 1 + j) % 256)) (List.range (min bc (s.wc - 1))) = _
      rw [List.append_assoc]
      congr 1
      show Ev.tx (b i % 256) :: _ = _
      congr 1
      apply List.map_congr_left
      intro j _
      show Ev.tx (b (i + 1 + j) % 256) = Ev.tx (b (i + (j + 1)) % 256)
      rw [Nat.add_assoc, Nat.add_comm 1 j]
    · rw [if_neg h]
      have h0 : s.wc = 0 := by omega
      simp [h0]

theorem writep_send_clk (b : Nat → Nat) (i bc : Nat) (s : St) :
    (writep_send b i bc s).clk = s.clk + min bc s.wc := by
  induction bc generalizing i s with
  | zero => simp [writep_send]
  | succ bc ih =>
    rw [writep_send]
    by_cases h : s.wc ≠ 0
    · rw [if_pos h, ih]
      show s.clk + 1 + min bc (s.wc - 1) = _
      omega
    · rw [if_neg h]
      have h0 : s.wc = 0 := by omega
      simp [h0]

/-- C11: for every payload of `n` bytes (`n > 0` included) and every value `r` of the
write counter, `disk_writep` in append shape transmits exactly the first `min n r`
payload bytes in order and nothing else, leaves the write counter at `r - min n r`, and
returns Ok, also when `n` exceeds `r`: the surplus input is ignored. -/
theorem C11_append_bytes (s : St) (payload : List Nat) (h32 : payload.length < 2 ^ 32)
    (hb : ∀ x ∈ payload, x < 256) :
    (disk_writep (some (fun i => payload.getD i 0)) payload.length s).1 = DRESULT.RES_OK ∧
    (disk_writep (some (fun i => payload.getD i 0)) payload.length s).2.log =
      s.log ++ (payload.take (min payload.length s.wc)).map Ev.tx ∧
    (disk_writep (some (fun i => payload.getD i 0)) payload.length s).2.clk =
      s.clk + min payload.length s.wc ∧
    (disk_writep (some (fun i => payload.getD i 0)) payload.length s).2.wc =
      s.wc - min payload.length s.wc := by
  have hu : u32 payload.length = payload.length := by
    rw [u32_eq, Nat.mod_eq_of_lt h32]
  refine ⟨rfl, ?_, ?_, ?_⟩
  · show (writep_send (fun i => payload.getD i 0) 0 (u32 payload.length) s).log = _
    rw [writep_send_log, hu]
    have ht := drop_take_eq_map_range payload 0 (min payload.length s.wc) (by omega)
    rw [List.drop_zero] at ht
    rw [ht, List.map_map]
    congr 1
    apply List.map_congr_left
    intro j hj
    have hj' : j < payload.length := by
      have := List.mem_range.mp hj
      omega
    show Ev.tx (payload.getD (0 + j) 0 % 256) = Ev.tx (payload.getD (0 + j) 0)
    rw [Nat.mod_eq_of_lt]
    apply hb
    rw [Nat.zero_add, List.getD_eq_getElem _ _ hj']
    exact List.getElem_mem _
  · show (writep_send (fun i => payload.getD i 0) 0 (u32 payload.length) s).clk = _
    rw [writep_send_clk, hu]
  · rw [append_wc, hu]
    omega

/-- C11 with a payload of three bytes and two bytes left in the block: the first two
are transmitted and the counter ends at zero. -/
theorem C11_append_bytes_witness :
    (disk_writep (some (fun i => [0x11, 0x22, 0x33].getD i 0)) 3
      { boot cardAbsent with wc := 2 }).2.log = [Ev.tx 0x11, Ev.tx 0x22] ∧
    (disk_writep (some (fun i => [0x11, 0x22, 0x33].getD i 0)) 3
      { boot cardAbsent with wc := 2 }).2.wc = 0 :=
  have h := C11_append_bytes { boot cardAbsent with wc := 2 } [0x11, 0x22, 0x33]
    (by decide) (by decide)
  ⟨h.2.1, h.2.2.2⟩

/-- C12: for every non-zero sector, `disk_writep` in initiate shape behaves as follows:
if the response to CMD24 is 0 it transmits exactly the two bytes `0xFF` then `0xFE`
after the command, sets the write counter to 512 and returns Ok; if the response is
anything else it does nothing after the command (no further byte), returns Error, and
leaves the write counter exactly as it was before the call. -/
theorem C12_initiate (s : St) (sc : Nat) (hsc : sc ≠ 0) :
    ((send_cmd CMD24 (byte_address s sc) s).1 = 0 →
      (disk_writep none sc s).1 = DRESULT.RES_OK ∧
      (disk_writep none sc s).2.wc = 512 ∧
      (disk_writep none sc s).2.log =
        (send_cmd CMD24 (byte_address s sc) s).2.log ++ [Ev.tx 0xFF, Ev.tx 0xFE]) ∧
    ((send_cmd CMD24 (byte_address s sc) s).1 ≠ 0 →
      disk_writep none sc s = (DRESULT.RES_ERROR, (send_cmd CMD24 (byte_address s sc) s).2) ∧
      (disk_writep none sc s).2.wc = s.wc) := by
  constructor
  · intro hr
    unfold disk_writep
    dsimp only
    rw [if_pos hsc, if_pos hr]
    refine ⟨rfl, rfl, ?_⟩
    show ((send_cmd CMD24 (byte_address s sc) s).2.log ++ [Ev.tx 0xFF]) ++ [Ev.tx 0xFE] = _
    rw [List.append_assoc]
    rfl
  · intro hr
    have he : disk_writep none sc s =
        (DRESULT.RES_ERROR, (send_cmd CMD24 (byte_address s sc) s).2) := by
      unfold disk_writep
      dsimp only
      rw [if_pos hsc, if_neg hr]
    rw [he]
    exact ⟨rfl, (Bus.cmd CMD24 (byte_address s sc) s).2.2.1⟩

/-- C12 at sector 7, from a state whose counter is 100, against a card that accepts the
command and against no card at all. -/
theorem C12_initiate_witness :
    ((disk_writep none 7 { boot cardTokenOnly with wc := 100 }).1 = DRESULT.RES_OK ∧
      (disk_writep none 7 { boot cardTokenOnly with wc := 100 }).2.wc = 512 ∧
      (disk_writep none 7 { boot cardTokenOnly with wc := 100 }).2.log =
        (send_cmd CMD24 (byte_address { boot cardTokenOnly with wc := 100 } 7)
          { boot cardTokenOnly with wc := 100 }).2.log ++ [Ev.tx 0xFF, Ev.tx 0xFE]) ∧
    (disk_writep none 7 { boot cardAbsent with wc := 100 } =
        (DRESULT.RES_ERROR, (send_cmd CMD24 (byte_address { boot cardAbsent with wc := 100 } 7)
          { boot cardAbsent with wc := 100 }).2) ∧
      (disk_writep none 7 { boot cardAbsent with wc := 100 }).2.wc
        = ({ boot cardAbsent with wc := 100 } : St).wc) :=
  ⟨(C12_initiate { boot cardTokenOnly with wc := 100 } 7 (by decide)).1 (by decide!),
   (C12_initiate { boot cardAbsent with wc := 100 } 7 (by decide)).2 (by decide!)⟩

theorem writep_busy_ready (tmr : Nat) (s : St) :
    (writep_busy tmr s).1 ≠ 0 ↔ ∃ j, j < tmr ∧ s.miso (s.clk + j) % 256 = 0xFF := by
  induction tmr generalizing s with
  | zero =>
    constructor
    · intro h; exact absurd rfl h
    · rintro ⟨j, hj, -⟩; exact absurd hj (Nat.not_lt_zero j)
  | succ tmr ih =>
    rw [writep_busy]
    by_cases h : (rcvr_mmc s).1 ≠ 0xFF
    · rw [if_pos h, ih]
      constructor
      · rintro ⟨j, hj, hv⟩
        refine ⟨j + 1, by omega, ?_⟩
        rw [← hv]
        show s.miso (s.clk + (j + 1)) % 256 = s.miso (s.clk + 1 + j) % 256
        rw [Nat.add_assoc, Nat.add_comm 1 j]
      · rintro ⟨j, hj, hv⟩
        cases j with
        | zero => exact absurd hv h
        | succ j =>
          refine ⟨j, by omega, ?_⟩
          rw [← hv]
          show s.miso (s.clk + 1 + j) % 256 = s.miso (s.clk + (j + 1)) % 256
          rw [Nat.add_assoc, Nat.add_comm 1 j]
    · rw [if_neg h]
      have h0 : s.miso s.clk % 256 = 0xFF := by
        by_contra hne; exact h hne
      exact ⟨fun _ => ⟨0, Nat.succ_pos _, h0⟩, fun _ => Nat.succ_ne_zero _⟩

/-- C13: `disk_writep` in finalize shape returns Ok if and only if the data-response byte
read after the padding has low 5 bits equal to `0b00101` and a byte equal to `0xFF`
occurs among the first 10000 bytes read after it; an accepted data response followed by
10000 bytes other than `0xFF` yields Error. -/
theorem C13_finalize_result (s : St) :
    ((disk_writep none 0 s).1 = DRESULT.RES_OK ↔
      (s.miso (s.clk + u32 (s.wc + 2)) % 256 &&& 0x1F = 0x05 ∧
        ∃ j, j < 10000 ∧ s.miso (s.clk + u32 (s.wc + 2) + 1 + j) % 256 = 0xFF)) ∧
    (s.miso (s.clk + u32 (s.wc + 2)) % 256 &&& 0x1F = 0x05 →
      (∀ j, j < 10000 → s.miso (s.clk + u32 (s.wc + 2) + 1 + j) % 256 ≠ 0xFF) →
      (disk_writep none 0 s).1 = DRESULT.RES_ERROR) := by
  have hd : (rcvr_mmc (writep_fill (u32 (s.wc + 2)) s)).1 =
      s.miso (s.clk + u32 (s.wc + 2)) % 256 := by
    rw [rcvr_mmc_fst, writep_fill_eq]
  have hb : (writep_busy 10000 (rcvr_mmc (writep_fill (u32 (s.wc + 2)) s)).2).1 ≠ 0 ↔
      ∃ j, j < 10000 ∧ s.miso (s.clk + u32 (s.wc + 2) + 1 + j) % 256 = 0xFF := by
    have hm : (rcvr_mmc (writep_fill (u32 (s.wc + 2)) s)).2.miso = s.miso := by
      rw [rcvr_mmc_miso, writep_fill_eq]
    have hc : (rcvr_mmc (writep_fill (u32 (s.wc + 2)) s)).2.clk = s.clk + u32 (s.wc + 2) + 1 := by
      rw [rcvr_mmc_clk, writep_fill_eq]
    have := writep_busy_ready 10000 (rcvr_mmc (writep_fill (u32 (s.wc + 2)) s)).2
    rw [hm, hc] at this
    exact this
  have hres : (disk_writep none 0 s).1 =
      if (rcvr_mmc (writep_fill (u32 (s.wc + 2)) s)).1 &&& 0x1F = 0x05 then
        (if (writep_busy 10000 (rcvr_mmc (writep_fill (u32 (s.wc + 2)) s)).2).1 ≠ 0
          then DRESULT.RES_OK else DRESULT.RES_ERROR)
      else DRESULT.RES_ERROR := by
    unfold disk_writep
    dsimp only
    rw [if_neg (by decide)]
    split_ifs <;> rfl
  rw [hres, hd]
  constructor
  · constructor
    · intro h
      by_cases h1 : s.miso (s.clk + u32 (s.wc + 2)) % 256 &&& 0x1F = 0x05
      · rw [if_pos h1] at h
        by_cases h2 : (writep_busy 10000 (rcvr_mmc (writep_fill (u32 (s.wc + 2)) s)).2).1 ≠ 0
        · exact ⟨h1, hb.mp h2⟩
        · rw [if_neg h2] at h; exact DRESULT.noConfusion h
      · rw [if_neg h1] at h; exact DRESULT.noConfusion h
    · rintro ⟨h1, h2⟩
      rw [if_pos h1, if_pos (hb.mpr h2)]
  · intro h1 h2
    have h3 : ¬ (writep_busy 10000 (rcvr_mmc (writep_fill (u32 (s.wc + 2)) s)).2).1 ≠ 0 := by
      intro h
      obtain ⟨j, hj, hv⟩ := hb.mp h
      exact h2 j hj hv
    rw [if_pos h1, if_neg h3]

/-- C13 at the scenario of the spec: initiate at sector 7, append 512 zero bytes, then
finalize against a card that accepts the block and signals ready after 3 busy polls:
all three calls return Ok. -/
theorem C13_finalize_result_witness :
    (disk_writep none 7 (boot cardWriteBusy)).1 = DRESULT.RES_OK ∧
    (disk_writep (some (fun _ => 0x00)) 512
      (disk_writep none 7 (boot cardWriteBusy)).2).1 = DRESULT.RES_OK ∧
    (disk_writep none 0 (disk_writep (some (fun _ => 0x00)) 512
      (disk_writep none 7 (boot cardWriteBusy)).2).2).1 = DRESULT.RES_OK :=
  ⟨by decide!, rfl,
    (C13_finalize_result (disk_writep (some (fun _ => 0x00)) 512
      (disk_writep none 7 (boot cardWriteBusy)).2).2).1.mpr
      ⟨by decide!, 3, by decide, by decide!⟩⟩

/-! ## The command packet and the response poll -/

theorem rcvrN_miso (m : Nat) (s : St) : (rcvrN m s).miso = s.miso := by
  induction m generalizing s with
  | zero => rfl
  | succ m ih => rw [rcvrN, ih, rcvr_mmc_miso]

theorem rcvrN_clk (m : Nat) (s : St) : (rcvrN m s).clk = s.clk + m := by
  induction m generalizing s with
  | zero => rfl
  | succ m ih => rw [rcvrN, ih, rcvr_mmc_clk]; omega

theorem rcvrN_log (m : Nat) (s : St) :
    (rcvrN m s).log = s.log ++ (List.range m).map (fun i => Ev.rx (s.miso (s.clk + i) % 256)) := by
  induction m generalizing s with
  | zero => simp [rcvrN]
  | succ m ih =>
    rw [rcvrN, ih, rcvr_mmc_log, rcvr_mmc_miso, rcvr_mmc_clk, List.range_succ_eq_map,
      List.map_cons, List.map_map, List.append_assoc]
    congr 1
    show Ev.rx (s.miso s.clk % 256) :: _ = _
    congr 1
    apply List.map_congr_left
    intro j _
    show Ev.rx (s.miso (s.clk + 1 + j) % 256) = Ev.rx (s.miso (s.clk + (j + 1)) % 256)
    rw [Nat.add_assoc, Nat.add_comm 1 j]

theorem rcvrN_wc (m : Nat) (s : St) : (rcvrN m s).wc = s.wc := by
  induction m generalizing s with
  | zero => rfl
  | succ m ih => rw [rcvrN, ih, rcvr_mmc_wc]

theorem rcvrN_CardType (m : Nat) (s : St) : (rcvrN m s).CardType = s.CardType := by
  induction m generalizing s with
  | zero => rfl
  | succ m ih => rw [rcvrN, ih, rcvr_mmc_CardType]

/-- The response poll stops on the first byte whose top bit is clear. -/
theorem resp_found (n j : Nat) (s : St) (hj : j < n)
    (hbusy : ∀ i, i < j → s.miso (s.clk + i) % 256 &&& 0x80 ≠ 0)
    (hvalid : s.miso (s.clk + j) % 256 &&& 0x80 = 0) :
    send_cmd_resp n s = (s.miso (s.clk + j) % 256, rcvrN (j + 1) s) := by
  induction n generalizing s j with
  | zero => omega
  | succ n ih =>
    rw [send_cmd_resp]
    cases j with
    | zero =>
      have hc : ¬((rcvr_mmc s).1 &&& 0x80 ≠ 0 ∧ n ≠ 0) := fun h => h.1 hvalid
      rw [if_neg hc]
      rfl
    | succ j =>
      have hc : (rcvr_mmc s).1 &&& 0x80 ≠ 0 ∧ n ≠ 0 :=
        ⟨hbusy 0 (Nat.succ_pos _), by omega⟩
      rw [if_pos hc, ih j (rcvr_mmc s).2 (by omega)
        (fun i hi => by
          have := hbusy (i + 1) (by omega)
          rw [rcvr_mmc_miso, rcvr_mmc_clk, Nat.add_assoc, Nat.add_comm 1 i]
          exact this)
        (by rw [rcvr_mmc_miso, rcvr_mmc_clk, Nat.add_assoc, Nat.add_comm 1 j]; exact hvalid)]
      rw [rcvr_mmc_miso, rcvr_mmc_clk, Nat.add_assoc, Nat.add_comm 1 j]
      rfl

/-- The response poll gives up after `n` bytes whose top bit is set. -/
theorem resp_timeout (n : Nat) (s : St)
    (hbusy : ∀ i, i < n + 1 → s.miso (s.clk + i) % 256 &&& 0x80 ≠ 0) :
    send_cmd_resp (n + 1) s = (s.miso (s.clk + n) % 256, rcvrN (n + 1) s) := by
  induction n generalizing s with
  | zero =>
    rw [send_cmd_resp]
    have hc : ¬((rcvr_mmc s).1 &&& 0x80 ≠ 0 ∧ 0 ≠ 0) := fun h => h.2 rfl
    rw [if_neg hc]
    rfl
  | succ n ih =>
    rw [send_cmd_resp]
    have hc : (rcvr_mmc s).1 &&& 0x80 ≠ 0 ∧ n + 1 ≠ 0 :=
      ⟨hbusy 0 (Nat.succ_pos _), Nat.succ_ne_zero _⟩
    rw [if_pos hc, ih (rcvr_mmc s).2
      (fun i hi => by
        have := hbusy (i + 1) (by omega)
        rw [rcvr_mmc_miso, rcvr_mmc_clk, Nat.add_assoc, Nat.add_comm 1 i]
        exact this)]
    rw [rcvr_mmc_miso, rcvr_mmc_clk, Nat.add_assoc, Nat.add_comm 1 n]
    rfl

/-- The response poll reads between 1 and `n` bytes and returns the last one read. -/
theorem resp_last (n : Nat) (s : St) (hn : 1 ≤ n) :
    ∃ m, 1 ≤ m ∧ m ≤ n ∧
      send_cmd_resp n s = (s.miso (s.clk + (m - 1)) % 256, rcvrN m s) := by
  induction n generalizing s with
  | zero => omega
  | succ n ih =>
    by_cases hc : (rcvr_mmc s).1 &&& 0x80 ≠ 0 ∧ n ≠ 0
    · obtain ⟨m, h1, h2, h3⟩ := ih (rcvr_mmc s).2 (by omega)
      refine ⟨m + 1, by omega, by omega, ?_⟩
      rw [send_cmd_resp, if_pos hc, h3, rcvr_mmc_miso, rcvr_mmc_clk]
      have : s.clk + 1 + (m - 1) = s.clk + (m + 1 - 1) := by omega
      rw [this]
      rfl
    · refine ⟨1, le_refl _, by omega, ?_⟩
      rw [send_cmd_resp, if_neg hc]
      rfl

theorem send_cmd_frame_eq (cmd arg : Nat) (s : St) :
    send_cmd_frame cmd arg s = send_cmd_resp 10 (send_cmd_packet cmd arg s) := rfl

/-- C16: for every plain command byte (top bit clear) and every argument, `send_cmd`
transmits, after the deselect/reselect (each followed by one read), exactly six bytes:
the command byte, then the argument's bits 31..24, 23..16, 15..8 and 7..0 in that order,
then a checksum byte that is `0x95` for CMD0, `0x87` for CMD8 and `0x01` for every other
command; all that follows are the 1 to 10 reads of the response poll. -/
theorem C16_command_packet (s : St) (cmd arg : Nat) (hplain : cmd &&& 0x80 = 0) :
    ∃ m, 1 ≤ m ∧ m ≤ 10 ∧
      (send_cmd cmd arg s).2.log = s.log ++
        [Ev.cs true, Ev.rx (s.miso s.clk % 256), Ev.cs false, Ev.rx (s.miso (s.clk + 1) % 256),
          Ev.tx cmd, Ev.tx (arg / 2 ^ 24 % 256), Ev.tx (arg / 2 ^ 16 % 256),
          Ev.tx (arg / 2 ^ 8 % 256), Ev.tx (arg % 256),
          Ev.tx (if cmd = CMD0 then 0x95 else if cmd = CMD8 then 0x87 else 0x01)]
        ++ (List.range m).map (fun i => Ev.rx (s.miso (s.clk + 8 + i) % 256)) := by
  obtain ⟨m, h1, h2, h3⟩ := resp_last 10 (send_cmd_packet cmd arg s) (by decide)
  refine ⟨m, h1, h2, ?_⟩
  rw [send_cmd_plain hplain, send_cmd_frame_eq, h3]
  show (rcvrN m (send_cmd_packet cmd arg s)).log = _
  rw [rcvrN_log, send_cmd_packet_log, send_cmd_packet_miso, send_cmd_packet_clk]
  have hcrc : (if cmd = CMD8 then 0x87 else if cmd = CMD0 then 0x95 else 0x01 : Nat) =
      (if cmd = CMD0 then 0x95 else if cmd = CMD8 then 0x87 else 0x01) := by
    by_cases h0 : cmd = CMD0
    · rw [if_pos h0, if_neg (by rw [h0]; decide), if_pos h0]
    · rw [if_neg h0, if_neg h0]
  rw [hcrc]
  simp only [Nat.shiftRight_eq_div_pow]

/-- C16 for the read command with argument `0x00000A00`. -/
theorem C16_command_packet_witness :
    ∃ m, 1 ≤ m ∧ m ≤ 10 ∧
      (send_cmd CMD17 0xA00 (boot cardTokenOnly)).2.log = (boot cardTokenOnly).log ++
        [Ev.cs true, Ev.rx ((boot cardTokenOnly).miso (boot cardTokenOnly).clk % 256),
          Ev.cs false, Ev.rx ((boot cardTokenOnly).miso ((boot cardTokenOnly).clk + 1) % 256),
          Ev.tx CMD17, Ev.tx (0xA00 / 2 ^ 24 % 256), Ev.tx (0xA00 / 2 ^ 16 % 256),
          Ev.tx (0xA00 / 2 ^ 8 % 256), Ev.tx (0xA00 % 256),
          Ev.tx (if CMD17 = CMD0 then 0x95 else if CMD17 = CMD8 then 0x87 else 0x01)]
        ++ (List.range m).map
          (fun i => Ev.rx ((boot cardTokenOnly).miso ((boot cardTokenOnly).clk + 8 + i) % 256)) :=
  C16_command_packet (boot cardTokenOnly) CMD17 0xA00 (by decide)

/-- C17: after transmitting a command frame (the one frame of a plain command, and each
of the two frames of an application command), `send_cmd` reads at least 1 and at most 10
response bytes and returns the last byte read: it returns the first byte whose top bit
(`0x80`) is clear if one occurs among the first 10 bytes read, reading nothing after it,
and otherwise returns the 10th byte read, which still has its top bit set. -/
theorem C17_response_poll (s : St) (cmd arg : Nat) :
    (cmd &&& 0x80 = 0 → send_cmd cmd arg s = send_cmd_frame cmd arg s) ∧
    (∃ m, 1 ≤ m ∧ m ≤ 10 ∧
      send_cmd_frame cmd arg s =
        (s.miso (s.clk + 8 + (m - 1)) % 256, rcvrN m (send_cmd_packet cmd arg s))) ∧
    (∀ j, j < 10 → (∀ i, i < j → s.miso (s.clk + 8 + i) % 256 &&& 0x80 ≠ 0) →
      s.miso (s.clk + 8 + j) % 256 &&& 0x80 = 0 →
      send_cmd_frame cmd arg s =
        (s.miso (s.clk + 8 + j) % 256, rcvrN (j + 1) (send_cmd_packet cmd arg s))) ∧
    ((∀ i, i < 10 → s.miso (s.clk + 8 + i) % 256 &&& 0x80 ≠ 0) →
      send_cmd_frame cmd arg s =
        (s.miso (s.clk + 8 + 9) % 256, rcvrN 10 (send_cmd_packet cmd arg s)) ∧
      (send_cmd_frame cmd arg s).1 &&& 0x80 ≠ 0) := by
  rw [send_cmd_frame_eq]
  have hm := send_cmd_packet_miso cmd arg s
  have hc := send_cmd_packet_clk cmd arg s
  refine ⟨fun hplain => send_cmd_plain hplain arg s, ?_, ?_, ?_⟩
  · obtain ⟨m, h1, h2, h3⟩ := resp_last 10 (send_cmd_packet cmd arg s) (by decide)
    rw [hm, hc] at h3
    exact ⟨m, h1, h2, h3⟩
  · intro j hj hbusy hvalid
    have := resp_found 10 j (send_cmd_packet cmd arg s) hj
      (by rw [hm, hc]; exact hbusy) (by rw [hm, hc]; exact hvalid)
    rw [hm, hc] at this
    exact this
  · intro hbusy
    have := resp_timeout 9 (send_cmd_packet cmd arg s) (by rw [hm, hc]; exact hbusy)
    rw [hm, hc] at this
    rw [this]
    exact ⟨rfl, hbusy 9 (by decide)⟩

/-- C17 for CMD17 against a card that answers `0x00` at once (the poll stops after one
read) and against no card (the poll returns the tenth `0xFF`). -/
theorem C17_response_poll_witness :
    (send_cmd CMD17 0 (boot cardTokenOnly) = send_cmd_frame CMD17 0 (boot cardTokenOnly)) ∧
    (send_cmd_frame CMD17 0 (boot cardTokenOnly) =
      ((boot cardTokenOnly).miso ((boot cardTokenOnly).clk + 8 + 0) % 256,
        rcvrN (0 + 1) (send_cmd_packet CMD17 0 (boot cardTokenOnly)))) ∧
    (send_cmd_frame CMD17 0 (boot cardAbsent) =
      ((boot cardAbsent).miso ((boot cardAbsent).clk + 8 + 9) % 256,
        rcvrN 10 (send_cmd_packet CMD17 0 (boot cardAbsent))) ∧
      (send_cmd_frame CMD17 0 (boot cardAbsent)).1 &&& 0x80 ≠ 0) :=
  ⟨(C17_response_poll (boot cardTokenOnly) CMD17 0).1 (by decide),
   (C17_response_poll (boot cardTokenOnly) CMD17 0).2.2.1 0 (by decide)
      (fun i hi => absurd hi (Nat.not_lt_zero i)) (by decide),
   (C17_response_poll (boot cardAbsent) CMD17 0).2.2.2
     (fun _ _ => show 0xFF % 256 &&& 0x80 ≠ 0 by decide)⟩

theorem and_7F_plain (cmd : Nat) : (cmd &&& 0x7F) &&& 0x80 = 0 := by
  rw [Nat.and_assoc]
  show cmd &&& 0 = 0
  exact Nat.and_zero cmd

theorem top_bit_gt_one (r : Nat) (h : r &&& 0x80 ≠ 0) : r > 1 := by
  by_contra hle
  have h1 : r = 0 ∨ r = 1 := by omega
  rcases h1 with h1 | h1 <;> subst h1 <;> exact h (by decide)

theorem drop_tx_frame (cmd arg : Nat) (s : St) :
    txBytes ((send_cmd_frame cmd arg s).2.log.drop s.log.length) =
      [cmd, (arg >>> 24) % 256, (arg >>> 16) % 256, (arg >>> 8) % 256, arg % 256,
        if cmd = CMD8 then 0x87 else if cmd = CMD0 then 0x95 else 0x01] := by
  obtain ⟨l, h1, h2⟩ := send_cmd_frame_log cmd arg s
  rw [h1, drop_log_append, h2]

/-- C18: for every application-specific command (command byte with top bit set) and
every argument, `send_cmd` first sends CMD55 with argument 0; if that response is greater
than 1 (which includes every response with the top bit set, such as a timed-out `0xFF`)
it returns that response and transmits no frame for the real command; otherwise it sends
the real command with the top bit of the command byte cleared and the caller's argument,
and returns the real command's response. -/
theorem C18_app_command (s : St) (cmd arg : Nat) (happ : cmd &&& 0x80 ≠ 0) :
    (∀ r : Nat, r &&& 0x80 ≠ 0 → r > 1) ∧
    ((send_cmd CMD55 0 s).1 > 1 →
      send_cmd cmd arg s = send_cmd CMD55 0 s ∧
      txBytes ((send_cmd cmd arg s).2.log.drop s.log.length) = [0x77, 0, 0, 0, 0, 0x01]) ∧
    ((send_cmd CMD55 0 s).1 ≤ 1 →
      send_cmd cmd arg s = send_cmd (cmd &&& 0x7F) arg (send_cmd CMD55 0 s).2 ∧
      txBytes ((send_cmd cmd arg s).2.log.drop s.log.length) =
        [0x77, 0, 0, 0, 0, 0x01, cmd &&& 0x7F, arg / 2 ^ 24 % 256, arg / 2 ^ 16 % 256,
          arg / 2 ^ 8 % 256, arg % 256,
          if cmd &&& 0x7F = CMD0 then 0x95 else if cmd &&& 0x7F = CMD8 then 0x87 else 0x01]) := by
  have h55 : send_cmd CMD55 0 s = send_cmd_frame CMD55 0 s := send_cmd_plain (by decide) 0 s
  have hdef : send_cmd cmd arg s =
      if (send_cmd_frame CMD55 0 s).1 > 1 then send_cmd_frame CMD55 0 s
      else send_cmd_frame (cmd &&& 0x7F) arg (send_cmd_frame CMD55 0 s).2 := by
    unfold send_cmd
    dsimp only
    rw [if_pos happ]
  have ht55 : txBytes ((send_cmd_frame CMD55 0 s).2.log.drop s.log.length) =
      [0x77, 0, 0, 0, 0, 0x01] := by
    rw [drop_tx_frame]
    rfl
  refine ⟨top_bit_gt_one, ?_, ?_⟩
  · intro hgt
    rw [h55] at hgt ⊢
    rw [hdef, if_pos hgt]
    exact ⟨rfl, ht55⟩
  · intro hle
    rw [h55] at hle ⊢
    rw [hdef, if_neg (by omega), send_cmd_plain (and_7F_plain cmd)]
    refine ⟨rfl, ?_⟩
    obtain ⟨l1, h1, h2⟩ := send_cmd_frame_log CMD55 0 s
    obtain ⟨l2, h3, h4⟩ := send_cmd_frame_log (cmd &&& 0x7F) arg (send_cmd_frame CMD55 0 s).2
    rw [h3, h1, List.append_assoc, drop_log_append, txBytes_append, h2, h4]
    have hcrc : (if cmd &&& 0x7F = CMD8 then 0x87 else if cmd &&& 0x7F = CMD0 then 0x95
        else 0x01 : Nat) =
        (if cmd &&& 0x7F = CMD0 then 0x95 else if cmd &&& 0x7F = CMD8 then 0x87 else 0x01) := by
      by_cases h0 : cmd &&& 0x7F = CMD0
      · rw [if_pos h0, if_neg (by rw [h0]; decide), if_pos h0]
      · rw [if_neg h0, if_neg h0]
    rw [hcrc]
    simp only [Nat.shiftRight_eq_div_pow]
    rfl

/-- C18 for ACMD41 with the high-capacity argument: against no card the CMD55 response
`0xFF` is returned and only the CMD55 frame is transmitted; against a card that answers
CMD55 with `0x00` the real command CMD41 (`0x69`) follows. -/
theorem C18_app_command_witness :
    (send_cmd ACMD41 0x40000000 (boot cardAbsent) = send_cmd CMD55 0 (boot cardAbsent) ∧
      txBytes ((send_cmd ACMD41 0x40000000 (boot cardAbsent)).2.log.drop
        (boot cardAbsent).log.length) = [0x77, 0, 0, 0, 0, 0x01]) ∧
    (send_cmd ACMD41 0x40000000 (boot cardTokenOnly) =
        send_cmd (ACMD41 &&& 0x7F) 0x40000000 (send_cmd CMD55 0 (boot cardTokenOnly)).2 ∧
      txBytes ((send_cmd ACMD41 0x40000000 (boot cardTokenOnly)).2.log.drop
        (boot cardTokenOnly).log.length) =
        [0x77, 0, 0, 0, 0, 0x01, ACMD41 &&& 0x7F, 0x40000000 / 2 ^ 24 % 256,
          0x40000000 / 2 ^ 16 % 256, 0x40000000 / 2 ^ 8 % 256, 0x40000000 % 256,
          if ACMD41 &&& 0x7F = CMD0 then 0x95 else if ACMD41 &&& 0x7F = CMD8 then 0x87
            else 0x01]) :=
  ⟨(C18_app_command (boot cardAbsent) ACMD41 0x40000000 (by decide)).2.1 (by decide!),
   (C18_app_command (boot cardTokenOnly) ACMD41 0x40000000 (by decide)).2.2 (by decide!)⟩

/-! ## Error paths of the partial sector read -/

/-- The token poll stops on the first byte other than `0xFF`. -/
theorem token_found (n j : Nat) (s : St) (hj : j < n)
    (hwait : ∀ i, i < j → s.miso (s.clk + i) % 256 = 0xFF)
    (htok : s.miso (s.clk + j) % 256 ≠ 0xFF) :
    readp_token n s = (s.miso (s.clk + j) % 256, rcvrN (j + 1) s) := by
  induction n generalizing s j with
  | zero => omega
  | succ n ih =>
    rw [readp_token]
    cases j with
    | zero =>
      have hc : ¬((rcvr_mmc s).1 = 0xFF ∧ n ≠ 0) := fun h => htok h.1
      rw [if_neg hc]
      rfl
    | succ j =>
      have hc : (rcvr_mmc s).1 = 0xFF ∧ n ≠ 0 := ⟨hwait 0 (Nat.succ_pos _), by omega⟩
      rw [if_pos hc, ih j (rcvr_mmc s).2 (by omega)
        (fun i hi => by
          have := hwait (i + 1) (by omega)
          rw [rcvr_mmc_miso, rcvr_mmc_clk, Nat.add_assoc, Nat.add_comm 1 i]
          exact this)
        (by rw [rcvr_mmc_miso, rcvr_mmc_clk, Nat.add_assoc, Nat.add_comm 1 j]; exact htok)]
      rw [rcvr_mmc_miso, rcvr_mmc_clk, Nat.add_assoc, Nat.add_comm 1 j]
      rfl

/-- The token poll gives up after `n + 1` bytes `0xFF`. -/
theorem token_timeout (n : Nat) (s : St)
    (hwait : ∀ i, i < n + 1 → s.miso (s.clk + i) % 256 = 0xFF) :
    readp_token (n + 1) s = (0xFF, rcvrN (n + 1) s) := by
  induction n generalizing s with
  | zero =>
    rw [readp_token]
    have hc : ¬((rcvr_mmc s).1 = 0xFF ∧ 0 ≠ 0) := fun h => h.2 rfl
    rw [if_neg hc]
    exact Prod.ext (hwait 0 (Nat.succ_pos _)) rfl
  | succ n ih =>
    rw [readp_token]
    have hc : (rcvr_mmc s).1 = 0xFF ∧ n + 1 ≠ 0 :=
      ⟨hwait 0 (Nat.succ_pos _), Nat.succ_ne_zero _⟩
    rw [if_pos hc, ih (rcvr_mmc s).2
      (fun i hi => by
        have := hwait (i + 1) (by omega)
        rw [rcvr_mmc_miso, rcvr_mmc_clk, Nat.add_assoc, Nat.add_comm 1 i]
        exact this)]
    rfl

theorem disk_readp_no_token (buff : Bool) (sector offset count : Nat) (s : St)
    (hr : (send_cmd CMD17 (byte_address s sector) s).1 = 0)
    (ht : (readp_token 1000 (send_cmd CMD17 (byte_address s sector) s).2).1 ≠ 0xFE) :
    disk_readp buff sector offset count s =
      ⟨DRESULT.RES_ERROR, [], [],
        release_spi (readp_token 1000 (send_cmd CMD17 (byte_address s sector) s).2).2⟩ := by
  unfold disk_readp
  dsimp only
  rw [if_pos hr, if_neg ht]

/-- C19: for every sector, offset and count, if the response to CMD17 is not 0, or if the
token poll (at most 1000 reads, stopping at the first byte other than `0xFF`) ends on a
byte that is not `0xFE`, including the case where all 1000 bytes are `0xFF`, then
`disk_readp` returns Error, reads no payload byte (after the command, or after the last
token poll, it only deselects), stores nothing into the destination buffer, and still
deselects the card (chip-select high, one more byte exchange) before returning. -/
theorem C19_read_error (s : St) (buff : Bool) (sector offset count : Nat) :
    ((send_cmd CMD17 (byte_address s sector) s).1 ≠ 0 →
      disk_readp buff sector offset count s =
        ⟨DRESULT.RES_ERROR, [], [],
          release_spi (send_cmd CMD17 (byte_address s sector) s).2⟩) ∧
    ((send_cmd CMD17 (byte_address s sector) s).1 = 0 →
      ∀ j, j < 1000 →
      (∀ i, i < j →
        s.miso ((send_cmd CMD17 (byte_address s sector) s).2.clk + i) % 256 = 0xFF) →
      s.miso ((send_cmd CMD17 (byte_address s sector) s).2.clk + j) % 256 ≠ 0xFF →
      s.miso ((send_cmd CMD17 (byte_address s sector) s).2.clk + j) % 256 ≠ 0xFE →
      disk_readp buff sector offset count s =
        ⟨DRESULT.RES_ERROR, [], [],
          release_spi (rcvrN (j + 1) (send_cmd CMD17 (byte_address s sector) s).2)⟩) ∧
    ((send_cmd CMD17 (byte_address s sector) s).1 = 0 →
      (∀ i, i < 1000 →
        s.miso ((send_cmd CMD17 (byte_address s sector) s).2.clk + i) % 256 = 0xFF) →
      disk_readp buff sector offset count s =
        ⟨DRESULT.RES_ERROR, [], [],
          release_spi (rcvrN 1000 (send_cmd CMD17 (byte_address s sector) s).2)⟩) ∧
    (∀ t : St, (release_spi t).log = t.log ++ [Ev.cs true, Ev.rx (t.miso t.clk % 256)]) := by
  have hm : (send_cmd CMD17 (byte_address s sector) s).2.miso = s.miso :=
    (Bus.cmd CMD17 (byte_address s sector) s).1
  refine ⟨disk_readp_reject buff sector offset count s, ?_, ?_, release_spi_log⟩
  · intro hr j hj hwait htok hne
    have ht := token_found 1000 j (send_cmd CMD17 (byte_address s sector) s).2 hj
      (by rw [hm]; exact hwait) (by rw [hm]; exact htok)
    rw [hm] at ht
    rw [disk_readp_no_token buff sector offset count s hr (by rw [ht]; exact hne), ht]
  · intro hr hwait
    have ht := token_timeout 999 (send_cmd CMD17 (byte_address s sector) s).2
      (by rw [hm]; exact hwait)
    rw [disk_readp_no_token buff sector offset count s hr
      (by rw [ht]; show (0xFF : Nat) ≠ 0xFE; decide), ht]

/-- C19 with no card (the command is not answered), with a card that answers the
command and then stays silent (1000 polls of `0xFF`), and with a card that answers the
command and then sends `0x00` instead of the start token. -/
theorem C19_read_error_witness :
    (disk_readp true 5 10 20 (boot cardAbsent) =
      ⟨DRESULT.RES_ERROR, [], [],
        release_spi (send_cmd CMD17 (byte_address (boot cardAbsent) 5) (boot cardAbsent)).2⟩) ∧
    (disk_readp true 5 10 20 (boot (cardOf (List.replicate 8 0xFF ++ [0x00]))) =
      ⟨DRESULT.RES_ERROR, [], [],
        release_spi (rcvrN 1000 (send_cmd CMD17
          (byte_address (boot (cardOf (List.replicate 8 0xFF ++ [0x00]))) 5)
          (boot (cardOf (List.replicate 8 0xFF ++ [0x00])))).2)⟩) ∧
    (disk_readp true 5 10 20 (boot (cardOf (List.replicate 8 0xFF ++ [0x00, 0x00]))) =
      ⟨DRESULT.RES_ERROR, [], [],
        release_spi (rcvrN (0 + 1) (send_cmd CMD17
          (byte_address (boot (cardOf (List.replicate 8 0xFF ++ [0x00, 0x00]))) 5)
          (boot (cardOf (List.replicate 8 0xFF ++ [0x00, 0x00])))).2)⟩) :=
  ⟨(C19_read_error (boot cardAbsent) true 5 10 20).1 (by decide!),
   (C19_read_error (boot (cardOf (List.replicate 8 0xFF ++ [0x00]))) true 5 10 20).2.2.1
     (by decide!) (by decide!),
   (C19_read_error (boot (cardOf (List.replicate 8 0xFF ++ [0x00, 0x00]))) true 5 10 20).2.1
     (by decide!) 0 (by decide) (fun i hi => absurd hi (Nat.not_lt_zero i))
     (by decide!) (by decide!)⟩

/-! ## The legacy path and the stored card type -/

theorem init_detect_legacy (s : St) (h0 : (send_cmd CMD0 0 s).1 = 1)
    (h8 : (send_cmd CMD8 0x1AA (send_cmd CMD0 0 s).2).1 ≠ 1) :
    init_detect s = init_legacy (send_cmd CMD8 0x1AA (send_cmd CMD0 0 s).2).2 := by
  unfold init_detect init_legacy
  dsimp only
  rw [if_pos h0, if_neg h8]

theorem init_detect_bad_echo (s : St) (h0 : (send_cmd CMD0 0 s).1 = 1)
    (h8 : (send_cmd CMD8 0x1AA (send_cmd CMD0 0 s).2).1 = 1)
    (he : ¬((init_rcvr4 (send_cmd CMD8 0x1AA (send_cmd CMD0 0 s).2).2).1.2.2.1 = 0x01 ∧
      (init_rcvr4 (send_cmd CMD8 0x1AA (send_cmd CMD0 0 s).2).2).1.2.2.2 = 0xAA)) :
    init_detect s = (0, (init_rcvr4 (send_cmd CMD8 0x1AA (send_cmd CMD0 0 s).2).2).2) := by
  unfold init_detect
  dsimp only
  rw [if_pos h0, if_pos h8, if_neg he]

theorem pollN_succ (cmd arg k : Nat) (s : St) :
    pollN cmd arg (k + 1) s = (send_cmd cmd arg (pollN cmd arg k s)).2 := by
  induction k generalizing s with
  | zero => rfl
  | succ k ih =>
    show pollN cmd arg (k + 1) (send_cmd cmd arg s).2 = _
    rw [ih]
    rfl

theorem init_wait_exhaust (cmd arg tmr : Nat) (s : St)
    (hbusy : ∀ j, j < tmr → (send_cmd cmd arg (pollN cmd arg j s)).1 ≠ 0) :
    init_wait cmd arg tmr s = (0, pollN cmd arg tmr s) := by
  induction tmr generalizing s with
  | zero => rfl
  | succ tmr ih =>
    rw [init_wait]
    have h0 : ¬ (send_cmd cmd arg s).1 = 0 := hbusy 0 (Nat.succ_pos _)
    rw [if_neg h0, ih (send_cmd cmd arg s).2 (fun j hj => hbusy (j + 1) (by omega))]
    rfl

theorem init_detect_type (s : St) :
    (init_detect s).1 = 0 ∨ (init_detect s).1 = CT_MMC ∨ (init_detect s).1 = CT_SD1 ∨
      (init_detect s).1 = CT_SD2 ∨ (init_detect s).1 = CT_SD2 ||| CT_BLOCK := by
  unfold init_detect
  dsimp only
  split_ifs
  all_goals first
    | exact Or.inl rfl
    | exact Or.inr (Or.inl rfl)
    | exact Or.inr (Or.inr (Or.inl rfl))
    | exact Or.inr (Or.inr (Or.inr (Or.inl rfl)))
    | exact Or.inr (Or.inr (Or.inr (Or.inr rfl)))

theorem disk_initialize_CardType (s : St) :
    ( disk_initialize s).2.CardType = (init_detect (skip_mmc 10 (CS_H s))).1 := by
  rw [disk_initialize_eq]
  rfl

/-- C20: for every card behaviour, the `CardType` stored by `disk_initialize` is one of
exactly five values: empty (0), MMC (`0x01`), SDv1 (`0x02`), SDv2 (`0x04`) or
SDv2+BlockAddressing (`0x0C`); in particular the block-addressing flag is never set
without SDv2, and no two of the family flags MMC, SDv1, SDv2 are ever set together. -/
theorem C20_card_type_values (s : St) :
    (( disk_initialize s).2.CardType = 0 ∨ ( disk_initialize s).2.CardType = 0x01 ∨
      ( disk_initialize s).2.CardType = 0x02 ∨ ( disk_initialize s).2.CardType = 0x04 ∨
      ( disk_initialize s).2.CardType = 0x0C) ∧
    (( disk_initialize s).2.CardType &&& CT_BLOCK = 0 ∨
      ( disk_initialize s).2.CardType &&& CT_SD2 ≠ 0) ∧
    (( disk_initialize s).2.CardType &&& (CT_MMC ||| CT_SD1 ||| CT_SD2) = 0 ∨
      ( disk_initialize s).2.CardType &&& (CT_MMC ||| CT_SD1 ||| CT_SD2) = CT_MMC ∨
      ( disk_initialize s).2.CardType &&& (CT_MMC ||| CT_SD1 ||| CT_SD2) = CT_SD1 ∨
      ( disk_initialize s).2.CardType &&& (CT_MMC ||| CT_SD1 ||| CT_SD2) = CT_SD2) := by
  rw [disk_initialize_CardType]
  rcases init_detect_type (skip_mmc 10 (CS_H s)) with h | h | h | h | h <;> rw [h] <;> decide

theorem legacy_log (s : St) :
    ∃ l, (init_legacy s).2.log = (send_cmd ACMD41 0 s).2.log ++ l := by
  unfold init_legacy
  dsimp only
  generalize (if (send_cmd ACMD41 0 s).1 ≤ 1 then ACMD41 else CMD1) = cmd
  have hw := Bus.init_wait cmd 0 1000 (send_cmd ACMD41 0 s).2
  split_ifs
  · exact hw.2.2.2.2
  · exact (hw.trans (Bus.cmd _ _ _)).2.2.2.2
  · exact (hw.trans (Bus.cmd _ _ _)).2.2.2.2
  · exact (hw.trans (Bus.cmd _ _ _)).2.2.2.2

/-- C14 (counterexample): the card answers CMD0 with idle and CMD8 with idle but echoes
`00 00 00 00`. `disk_initialize` then sends no further command (all it transmits is the
ten filler bytes, the CMD0 packet and the CMD8 packet), stores the empty `CardType` and
returns not-initialized, where the claim asks for the legacy probe to be sent next. -/
theorem C14_counterexample :
    (send_cmd CMD0 0 (skip_mmc 10 (CS_H (boot cardBadEcho)))).1 = 1 ∧
    (send_cmd CMD8 0x1AA (send_cmd CMD0 0 (skip_mmc 10 (CS_H (boot cardBadEcho)))).2).1 = 1 ∧
    ( disk_initialize (boot cardBadEcho)).1 = STA_NOINIT ∧
    ( disk_initialize (boot cardBadEcho)).2.CardType = 0 ∧
    txBytes ( disk_initialize (boot cardBadEcho)).2.log =
      List.replicate 10 0xFF ++ [0x40, 0, 0, 0, 0, 0x95, 0x48, 0, 0, 0x01, 0xAA, 0x87] := by
  refine ⟨?_, ?_, ?_, ?_, ?_⟩ <;> decide!

/-- C14 (amended): in `disk_initialize`, after an idle (`0x01`) response to reset, a
non-idle response to the interface-condition command (argument `0x1AA`) selects the
legacy path: the SD operation-condition probe with argument 0 is sent next and the stored
`CardType` is the one the legacy path detects (SDv1 or MMCv3 can still be detected). An
idle response whose four trailing bytes do not end in `0x01`, `0xAA` ends the
negotiation instead: after the four bytes the driver only deselects, stores the empty
`CardType` and returns not-initialized. -/
theorem C14_cmd8_outcomes (s s0 s8 : St) (r8 : Nat)
    (h0 : send_cmd CMD0 0 (skip_mmc 10 (CS_H s)) = (1, s0))
    (h8 : send_cmd CMD8 0x1AA s0 = (r8, s8)) :
    (r8 ≠ 1 →
      ( disk_initialize s).2.CardType = (init_legacy s8).1 ∧
      ∃ l, ( disk_initialize s).2.log = (send_cmd ACMD41 0 s8).2.log ++ l) ∧
    (r8 = 1 → ¬(s8.miso (s8.clk + 2) % 256 = 0x01 ∧ s8.miso (s8.clk + 3) % 256 = 0xAA) →
      ( disk_initialize s).1 = STA_NOINIT ∧ ( disk_initialize s).2.CardType = 0 ∧
      ( disk_initialize s).2 = release_spi { (init_rcvr4 s8).2 with CardType := 0 }) := by
  have h0a : (send_cmd CMD0 0 (skip_mmc 10 (CS_H s))).1 = 1 := by rw [h0]
  have h0b : (send_cmd CMD0 0 (skip_mmc 10 (CS_H s))).2 = s0 := by rw [h0]
  have h8a : (send_cmd CMD8 0x1AA (send_cmd CMD0 0 (skip_mmc 10 (CS_H s))).2).1 = r8 := by
    rw [h0b, h8]
  have h8b : (send_cmd CMD8 0x1AA (send_cmd CMD0 0 (skip_mmc 10 (CS_H s))).2).2 = s8 := by
    rw [h0b, h8]
  constructor
  · intro hr
    have hd := init_detect_legacy (skip_mmc 10 (CS_H s)) h0a (by rw [h8a]; exact hr)
    rw [h8b] at hd
    rw [disk_initialize_eq, hd]
    refine ⟨rfl, ?_⟩
    obtain ⟨l, hl⟩ := legacy_log s8
    refine ⟨l ++ [Ev.cs true, Ev.rx ((init_legacy s8).2.miso (init_legacy s8).2.clk % 256)], ?_⟩
    rw [release_spi_log, ← List.append_assoc, ← hl]
  · intro hr he
    have hd := init_detect_bad_echo (skip_mmc 10 (CS_H s)) h0a (by rw [h8a]; exact hr)
      (by rw [h8b, init_rcvr4_fst]; exact he)
    rw [h8b] at hd
    rw [disk_initialize_eq, hd]
    exact ⟨rfl, rfl, rfl⟩

/-- C14 (amended) on three cards: an SDv1 card and an MMCv3 card that answer CMD8 with
illegal-command are detected on the legacy path; a card that answers CMD8 with idle and
a wrong echo is left not initialized. -/
theorem C14_cmd8_outcomes_witness :
    ( disk_initialize (boot cardSDv1)).2.CardType = CT_SD1 ∧
    ( disk_initialize (boot cardMMC)).2.CardType = CT_MMC ∧
    ( disk_initialize (boot cardBadEcho)).2.CardType = 0 :=
  ⟨((C14_cmd8_outcomes (boot cardSDv1) _ _ _ (Prod.ext (by decide!) rfl)
      (Prod.ext rfl rfl)).1 (by decide!)).1.trans (by decide!),
   ((C14_cmd8_outcomes (boot cardMMC) _ _ _ (Prod.ext (by decide!) rfl)
      (Prod.ext rfl rfl)).1 (by decide!)).1.trans (by decide!),
   ((C14_cmd8_outcomes (boot cardBadEcho) _ _ _ (Prod.ext (by decide!) rfl)
      (Prod.ext rfl rfl)).2 (by decide!) (by decide!)).2.1⟩

theorem init_legacy_ready (s8 t : St) (r41 ty cmd k : Nat)
    (h41 : send_cmd ACMD41 0 s8 = (r41, t))
    (hty : ty = if r41 ≤ 1 then CT_SD1 else CT_MMC)
    (hcmd : cmd = if r41 ≤ 1 then ACMD41 else CMD1)
    (hk : k < 1000)
    (hbusy : ∀ j, j < k → (send_cmd cmd 0 (pollN cmd 0 j t)).1 ≠ 0)
    (hready : (send_cmd cmd 0 (pollN cmd 0 k t)).1 = 0) :
    init_legacy s8 =
      (if (send_cmd CMD16 512 (pollN cmd 0 (k + 1) t)).1 = 0 then ty else 0,
        (send_cmd CMD16 512 (pollN cmd 0 (k + 1) t)).2) := by
  have hw := init_wait_ready cmd 0 1000 k t hk hbusy hready
  rw [← pollN_succ] at hw
  unfold init_legacy
  dsimp only
  rw [h41]
  dsimp only
  rw [← hty, ← hcmd, hw]
  dsimp only
  rw [if_neg (by omega)]
  by_cases h16 : (send_cmd CMD16 512 (pollN cmd 0 (k + 1) t)).1 = 0
  · rw [if_neg (fun h => h h16), if_pos h16]
  · rw [if_pos h16, if_neg h16]

theorem init_legacy_timeout (s8 t : St) (r41 cmd : Nat)
    (h41 : send_cmd ACMD41 0 s8 = (r41, t))
    (hcmd : cmd = if r41 ≤ 1 then ACMD41 else CMD1)
    (hbusy : ∀ j, j < 1000 → (send_cmd cmd 0 (pollN cmd 0 j t)).1 ≠ 0) :
    init_legacy s8 = (0, pollN cmd 0 1000 t) := by
  have hw := init_wait_exhaust cmd 0 1000 t hbusy
  unfold init_legacy
  dsimp only
  rw [h41]
  dsimp only
  rw [← hcmd, hw]
  dsimp only
  rw [if_pos rfl]

/-- C15: on the legacy path of `disk_initialize` (idle to CMD0, a response other than
idle to CMD8), the card is classified SDv1 exactly when the probe (ACMD41, argument 0)
returns a value `≤ 1`, and MMCv3 otherwise; the ready-wait loop then sends ACMD41 for
SDv1 and CMD1 for MMCv3, each with argument 0, at most 1000 times until a response of 0.
If the response 0 arrives on poll `k + 1 ≤ 1000`, CMD16 with argument 512 follows and the
stored `CardType` is the classified type when CMD16 returns 0 and empty otherwise; if
none of the 1000 polls returns 0, no CMD16 is sent and the stored `CardType` is empty. -/
theorem C15_legacy_path (s s0 s8 t : St) (r8 r41 ty cmd : Nat)
    (h0 : send_cmd CMD0 0 (skip_mmc 10 (CS_H s)) = (1, s0))
    (h8 : send_cmd CMD8 0x1AA s0 = (r8, s8)) (hr8 : r8 ≠ 1)
    (h41 : send_cmd ACMD41 0 s8 = (r41, t))
    (hty : ty = if r41 ≤ 1 then CT_SD1 else CT_MMC)
    (hcmd : cmd = if r41 ≤ 1 then ACMD41 else CMD1) :
    (∀ k, k < 1000 → (∀ j, j < k → (send_cmd cmd 0 (pollN cmd 0 j t)).1 ≠ 0) →
      (send_cmd cmd 0 (pollN cmd 0 k t)).1 = 0 →
      ( disk_initialize s).2.CardType =
        (if (send_cmd CMD16 512 (pollN cmd 0 (k + 1) t)).1 = 0 then ty else 0) ∧
      ( disk_initialize s).2 =
        release_spi { (send_cmd CMD16 512 (pollN cmd 0 (k + 1) t)).2 with
          CardType := if (send_cmd CMD16 512 (pollN cmd 0 (k + 1) t)).1 = 0 then ty else 0 }) ∧
    ((∀ j, j < 1000 → (send_cmd cmd 0 (pollN cmd 0 j t)).1 ≠ 0) →
      ( disk_initialize s).2.CardType = 0 ∧
      ( disk_initialize s).2 = release_spi { pollN cmd 0 1000 t with CardType := 0 }) := by
  have h0a : (send_cmd CMD0 0 (skip_mmc 10 (CS_H s))).1 = 1 := by rw [h0]
  have h0b : (send_cmd CMD0 0 (skip_mmc 10 (CS_H s))).2 = s0 := by rw [h0]
  have h8a : (send_cmd CMD8 0x1AA (send_cmd CMD0 0 (skip_mmc 10 (CS_H s))).2).1 = r8 := by
    rw [h0b, h8]
  have h8b : (send_cmd CMD8 0x1AA (send_cmd CMD0 0 (skip_mmc 10 (CS_H s))).2).2 = s8 := by
    rw [h0b, h8]
  have hd := init_detect_legacy (skip_mmc 10 (CS_H s)) h0a (by rw [h8a]; exact hr8)
  rw [h8b] at hd
  constructor
  · intro k hk hbusy hready
    rw [disk_initialize_eq, hd,
      init_legacy_ready s8 t r41 ty cmd k h41 hty hcmd hk hbusy hready]
    exact ⟨rfl, rfl⟩
  · intro hbusy
    rw [disk_initialize_eq, hd, init_legacy_timeout s8 t r41 cmd h41 hcmd hbusy]
    generalize pollN cmd 0 1000 t = u
    exact ⟨rfl, rfl⟩

/-- C15 on an SDv1 card (probe answered with idle, ACMD41 ready on the first poll) and
on an MMCv3 card (probe rejected, CMD1 ready on the first poll). -/
theorem C15_legacy_path_witness :
    ( disk_initialize (boot cardSDv1)).2.CardType = CT_SD1 ∧
    ( disk_initialize (boot cardMMC)).2.CardType = CT_MMC :=
  ⟨((C15_legacy_path (boot cardSDv1) _ _ _ _ _ _ _ (Prod.ext (by decide!) rfl)
      (Prod.ext rfl rfl) (by decide!) (Prod.ext rfl rfl) rfl rfl).1 0 (by decide)
      (fun j hj => absurd hj (Nat.not_lt_zero j)) (by decide!)).1.trans (by decide!),
   ((C15_legacy_path (boot cardMMC) _ _ _ _ _ _ _ (Prod.ext (by decide!) rfl)
      (Prod.ext rfl rfl) (by decide!) (Prod.ext rfl rfl) rfl rfl).1 0 (by decide)
      (fun j hj => absurd hj (Nat.not_lt_zero j)) (by decide!)).1.trans (by decide!)⟩

end Mmcbbp
